import Mathlib

/-!
# Verification of the rao agent-orchestration pipeline

Shallow embedding of the repository's three source files:

* `src/typedef/main.py` — the pydantic data model (`AgentConfig`,
  `MasterAgentConfig`);
* `src/utils/agent.py` — thin constructors around the external `agno`
  agent-execution service (modelled as oracles);
* `src/main.py` — the dependency-driven scheduler: `run_child_agent`
  (prompt composition, invocation, fallback recovery), the wave loop of
  `main` (readiness, parallel wave execution, wave close, re-plan), and
  the final-verdict prompt aggregation.

External capabilities (the `agno` calls `child_agent.arun`,
`master_agent.run` and the final-verdict call) are modelled as explicit
oracle parameters: an invocation oracle mapping an agent configuration
and a prompt to either returned text content or a raised exception's
message, and a re-plan oracle mapping the accumulated limitation list to
either a freshly parsed `MasterAgentConfig` or a failure.  Python dicts
are modelled as insertion-ordered association lists (`results[k] = v`
with a fresh key appends, `list(d.values())` is the stored order), and
Python sets of small ints as duplicate-free lists.  `print` calls are
side effects with no bearing on the claims and are dropped.
-/

namespace Rao

/-- Modelled from the spec: `ToolRequirement` — its class declaration is
absent from `src` (the `src/typedef/main.py` shipped in the repository
does not define it), but `src/main.py` reads the fields `tool_name`,
`required_capabilities`, `fallback_tools` and `critical` on the members
of `agent.required_tools` (lines 56–61 and 250–257).  Per the spec §3:
`{ tool_name, required_capabilities, fallback_tools (possibly empty),
critical }`. -/
structure ToolRequirement where
  tool_name : String
  required_capabilities : List String
  /-- `Optional` sequence in the source; only its truthiness and its
  elements are used, so `None` is collapsed to `[]`. -/
  fallback_tools : List String
  critical : Bool
deriving DecidableEq, Repr

/-- The agent-configuration record as `src/main.py` manipulates it at run
time.  The first seven fields are the ones `src/typedef/main.py` declares
on the pydantic `AgentConfig`; `required_tools` and `fallback_strategy`
are read by `src/main.py` (lines 54, 66, 84, 249) although the shipped
pydantic model does not declare them — that discrepancy is recorded
separately in `AgentConfig.typedefFields`.  Optional fields that the
scheduler only tests for truthiness and iterates (`relies_on`,
`required_tools`) collapse `None` to `[]`. -/
structure AgentConfig where
  id : Nat
  type : String
  usecase : String
  system : String
  prompt : String
  model : Option String := none
  relies_on : List Nat := []
  required_tools : List ToolRequirement := []
  fallback_strategy : Option String := none
deriving DecidableEq, Repr

/-- The field names actually declared on `AgentConfig` in
`src/typedef/main.py` (lines 5–26). -/
def AgentConfig.typedefFields : List String :=
  ["id", "type", "usecase", "system", "prompt", "model", "relies_on"]

/-- The attribute names `src/main.py` reads on child-agent configuration
objects (lines 26, 29–71, 84–89, 203–205, 223–225, 249–257, 314–320). -/
def AgentConfig.mainReadFields : List String :=
  ["id", "type", "usecase", "system", "prompt", "model", "relies_on",
   "required_tools", "fallback_strategy"]

/-- The master-agent record as `src/main.py` manipulates it.  The first
five fields are the ones `src/typedef/main.py` declares on the pydantic
`MasterAgentConfig`; `estimated_step_count` and `plan_confidence` are
read by `src/main.py` (lines 172–175) although the shipped pydantic
model does not declare them — recorded in
`MasterAgentConfig.typedefFields`.  `plan_confidence` is only ever
tested against `None` and printed, so its numeric type is abstracted to
`Int`. -/
structure MasterAgentConfig where
  type : String := "Master Agent"
  query : String
  intent_analysis : String
  response : String
  agents : List AgentConfig
  estimated_step_count : Option Int := none
  plan_confidence : Option Int := none
deriving DecidableEq, Repr

/-- The field names actually declared on `MasterAgentConfig` in
`src/typedef/main.py` (lines 29–44). -/
def MasterAgentConfig.typedefFields : List String :=
  ["type", "query", "intent_analysis", "response", "agents"]

/-- The attribute names `src/main.py` reads on the master configuration
object (lines 169–193). -/
def MasterAgentConfig.mainReadFields : List String :=
  ["agents", "estimated_step_count", "plan_confidence", "response"]

/-- The result dictionary returned by `run_child_agent`
(`src/main.py` lines 78, 94–100, 102–109, 111–117).  Keys that are
present only on some return paths are `Option`-valued; `.get(k, d)`
becomes `Option.getD`. -/
structure AgentResult where
  config : AgentConfig
  result : String
  index : Nat
  status : String
  error : Option String := none
  original_error : Option String := none
  fallback_error : Option String := none
deriving DecidableEq, Repr

/-- One entry of the `tool_limitations` list built at wave close
(`src/main.py` lines 252–258). -/
structure Limitation where
  agent_id : Nat
  agent_type : String
  tool : String
  required_capabilities : List String
  error : String
deriving DecidableEq, Repr

/-- Python truthiness of an optional string: `None` and `""` are falsy. -/
def pyTruthyStr : Option String → Bool
  | none => false
  | some s => !s.isEmpty

/-- Python rendering of a boolean inside an f-string. -/
def pyBool : Bool → String
  | true => "True"
  | false => "False"

/-- The `results` dictionary of `main` (`src/main.py` line 187): agent
index to result record, in insertion order. -/
abbrev ResultsMap := List (Nat × AgentResult)

/-- Dictionary lookup on the results map.  Keys are inserted at most
once per pass, so first-match lookup coincides with Python dict
semantics. -/
def lookupRes (m : ResultsMap) (i : Nat) : Option AgentResult :=
  (m.find? (fun e => e.1 == i)).map (fun e => e.2)

/-- The `agent_map` dict of `src/main.py` lines 192–194: later entries
overwrite earlier ones on a duplicate id, hence the reversed search. -/
def agentMapLookup (agents : List AgentConfig) (i : Nat) : Option AgentConfig :=
  agents.reverse.find? (fun a => a.id == i)

/-- Sequential effectful map over `Except`, the order `asyncio.gather`
presents results in (task order) and the order Python `for` loops and
comprehensions evaluate in; an exception in any element propagates. -/
def exMapM {α β : Type} (f : α → Except String β) : List α → Except String (List β)
  | [] => .ok []
  | x :: xs =>
    match f x with
    | .error e => .error e
    | .ok y =>
      match exMapM f xs with
      | .error e => .error e
      | .ok ys => .ok (y :: ys)

/-- Python `sep.join(strings)`. -/
def strJoin (sep : String) : List String → String
  | [] => ""
  | [x] => x
  | x :: y :: xs => x ++ sep ++ strJoin sep (y :: xs)

/-- The labelled context block built for one upstream dependency
(`src/main.py` lines 40–45). -/
def parentBlock (parent_idx : Nat) (parent_config : AgentConfig)
    (parent_output : String) : String :=
  "### Input from Agent " ++ toString parent_idx ++ " (" ++ parent_config.type
    ++ ") ###\nFocus: " ++ parent_config.usecase ++ "\n\n" ++ parent_output
    ++ "\n### End of input from Agent " ++ toString parent_idx ++ " ###"

/-- Lines 31–45 of `src/main.py`: build the list of parent context
blocks, raising (`ValueError`) at the first id in `relies_on` whose
results are absent. -/
def buildParentContexts (idx : Nat) (relies : List Nat) (pr : ResultsMap) :
    Except String (List String) :=
  exMapM (fun parent_idx =>
    match lookupRes pr parent_idx with
    | none =>
      .error ("Agent " ++ toString idx ++ " depends on Agent "
        ++ toString parent_idx ++ ", but its results are not available")
    | some parent => .ok (parentBlock parent_idx parent.config parent.result))
    relies

/-- Lines 55–61 of `src/main.py`: the `tool_info` lines for one
required-tool entry. -/
def toolInfoLines (tr : ToolRequirement) : List String :=
  ["Required Tool: " ++ tr.tool_name,
   "Required Capabilities: " ++ strJoin ", " tr.required_capabilities]
  ++ (if !tr.fallback_tools.isEmpty then
        ["Fallback Tools: " ++ strJoin ", " tr.fallback_tools]
      else [])
  ++ ["Critical: " ++ pyBool tr.critical]

/-- Lines 26–51 of `src/main.py`: `final_prompt` after the
parent-context stage — the agent prompt alone, or the joined parent
blocks prepended (the condition is Python truthiness of both
`parent_results` and `agent_config.relies_on`); raises on a missing
dependency. -/
def composeParentStage (agent_config : AgentConfig) (idx : Nat)
    (parent_results : ResultsMap) : Except String String :=
  if !parent_results.isEmpty && !agent_config.relies_on.isEmpty then
    match buildParentContexts idx agent_config.relies_on parent_results with
    | .error e => .error e
    | .ok parent_contexts =>
      .ok (strJoin "\n\n" parent_contexts ++ "\n\n" ++ agent_config.prompt)
  else .ok agent_config.prompt

/-- Lines 53–67 of `src/main.py`: append the tool-requirement and
fallback-strategy annotations to `final_prompt` when `required_tools` is
truthy. -/
def addToolContext (agent_config : AgentConfig) (final_prompt : String) : String :=
  if !agent_config.required_tools.isEmpty then
    let tool_context :=
      strJoin "\n" (agent_config.required_tools.map toolInfoLines).flatten
    let p := final_prompt ++ "\n\nTool Requirements:\n" ++ tool_context
    if pyTruthyStr agent_config.fallback_strategy then
      p ++ "\n\nFallback Strategy: " ++ agent_config.fallback_strategy.getD ""
    else p
  else final_prompt

/-- Lines 26–67 of `src/main.py`: compose the effective prompt for one
agent (`final_prompt`), or raise on a missing dependency. -/
def composePrompt (agent_config : AgentConfig) (idx : Nat)
    (parent_results : ResultsMap) : Except String String :=
  match composeParentStage agent_config idx parent_results with
  | .error e => .error e
  | .ok final_prompt => .ok (addToolContext agent_config final_prompt)

/-- The external agent-execution capability (`child_agent.arun`): from
the agent configuration the child agent was created with and the prompt,
either returned text content or a raised exception's message. -/
abbrev Invoke := AgentConfig → String → Except String String

/-- The fallback retry prompt, `src/main.py` lines 86–90 (a triple-quoted
f-string, leading indentation included). -/
def fallbackRetryPrompt (e fs : String) : String :=
  "\n                Original task failed with error: " ++ e
    ++ "\n                Please execute the following fallback strategy:\n                "
    ++ fs ++ "\n                "

/-- Lines 74–117 of `src/main.py`: invoke the child agent on the
composed prompt, with one fallback retry when `fallback_strategy` is
set.  Every branch returns a result dictionary; nothing is re-raised. -/
def invokeWithFallback (inv : Invoke) (agent_config : AgentConfig) (idx : Nat)
    (final_prompt : String) : AgentResult :=
  match inv agent_config final_prompt with
  | .ok content =>
    { config := agent_config, result := content, index := idx, status := "success" }
  | .error e =>
    let error_msg := "Error in Agent " ++ toString idx ++ " ("
      ++ agent_config.type ++ "): " ++ e
    if pyTruthyStr agent_config.fallback_strategy then
      match inv agent_config
          (fallbackRetryPrompt e (agent_config.fallback_strategy.getD "")) with
      | .ok fcontent =>
        { config := agent_config, result := fcontent, index := idx,
          status := "fallback_success", original_error := some e }
      | .error fe =>
        { config := agent_config,
          result := "Both primary and fallback strategies failed. Original error: "
            ++ e ++ ". Fallback error: " ++ fe,
          index := idx, status := "failure",
          original_error := some e, fallback_error := some fe }
    else
      { config := agent_config, result := error_msg, index := idx,
        status := "failure", error := some e }

/-- `run_child_agent` (`src/main.py` lines 15–117), paired with the
composed prompt the invocation oracle received (the prompt is a ghost
observation used by the scheduler trace; the first component is exactly
the returned dictionary).  The missing-dependency `ValueError` raised
during prompt composition is an `Except.error`: it is raised before the
`try` of line 74 and so is never converted into a failure result. -/
def run_child_agentL (inv : Invoke) (agent_config : AgentConfig) (idx : Nat)
    (parent_results : ResultsMap) : Except String (AgentResult × String) :=
  match composePrompt agent_config idx parent_results with
  | .error e => .error e
  | .ok final_prompt =>
    .ok (invokeWithFallback inv agent_config idx final_prompt, final_prompt)

/-- `run_child_agent` proper: the result dictionary, or the propagated
exception. -/
def run_child_agent (inv : Invoke) (agent_config : AgentConfig) (idx : Nat)
    (parent_results : ResultsMap) : Except String AgentResult :=
  (run_child_agentL inv agent_config idx parent_results).map Prod.fst

/-! ## The execution scheduler (`main`, `src/main.py` lines 186–298) -/

/-- The mutable execution state of one `main` invocation: `results`,
`failed_agents`, `tool_limitations`, `remaining_agents` and `agent_map`
(the latter represented by its source list `agents`, the current
`master_config.agents`).  `log` is a ghost trace: one entry per executed
wave, each pairing the result dictionary of every agent launched in that
wave with the composed prompt its invocation received. -/
structure SchedState where
  results : ResultsMap
  failed : List Nat
  limitations : List Limitation
  remaining : List Nat
  agents : List AgentConfig
  log : List (List (AgentResult × String))
deriving DecidableEq, Repr

/-- `is_ready` (`src/main.py` lines 201–205): an agent is ready when its
`relies_on` is empty/absent or every parent id has a stored result.  The
`agent_map[agent_idx]` access cannot fail for ids drawn from
`remaining_agents` (both come from the same agents list); the `none`
branch is unreachable there. -/
def is_ready (agents : List AgentConfig) (results : ResultsMap)
    (agent_idx : Nat) : Bool :=
  match agentMapLookup agents agent_idx with
  | none => false
  | some agent =>
    agent.relies_on.isEmpty
      || agent.relies_on.all (fun parent_idx => (lookupRes results parent_idx).isSome)

/-- Line 214: `ready_agents = [idx for idx in remaining_agents if is_ready(idx)]`. -/
def computeReady (agents : List AgentConfig) (results : ResultsMap)
    (remaining : List Nat) : List Nat :=
  remaining.filter (is_ready agents results)

/-- Lines 231–238: launch `run_child_agent` for every ready agent and
gather.  A raised exception in any task propagates out of the wave
(`asyncio.gather` re-raises); an absent `agent_map` key is the
corresponding `KeyError` (unreachable for ready ids). -/
def runWave (inv : Invoke) (agents : List AgentConfig) (results : ResultsMap)
    (ready : List Nat) : Except String (List (AgentResult × String)) :=
  exMapM (fun idx =>
    match agentMapLookup agents idx with
    | none => .error ("KeyError: " ++ toString idx)
    | some agent => run_child_agentL inv agent idx results)
    ready

/-- Lines 250–258: the limitation records contributed by one failed
agent — one per `required_tools` entry with `critical=true`.  The
`error` field reads the result's `"error"` key with default
`"Unknown error"`. -/
def criticalLims (agent_idx : Nat) (agent : AgentConfig) (r : AgentResult) :
    List Limitation :=
  agent.required_tools.filterMap (fun tool_req =>
    if tool_req.critical then
      some { agent_id := agent_idx, agent_type := agent.type,
             tool := tool_req.tool_name,
             required_capabilities := tool_req.required_capabilities,
             error := r.error.getD "Unknown error" }
    else none)

/-- Lines 241–258, one iteration of `for result in completed_results`:
store the result, drop the id from `remaining_agents`, and on failure
record the agent and its critical-tool limitations.  The stored key is
fresh (its id was still in `remaining_agents`), so dict assignment is an
append; `failed_agents` is a set, so insertion is skipped on a duplicate.
The `agent_map[agent_idx]` access cannot fail here (the result's index
came from `remaining_agents`). -/
def closeWaveStep (s : SchedState) (r : AgentResult) : SchedState :=
  let s := { s with results := s.results ++ [(r.index, r)],
                    remaining := s.remaining.erase r.index }
  if r.status = "failure" then
    let s := if s.failed.contains r.index then s
             else { s with failed := s.failed ++ [r.index] }
    match agentMapLookup s.agents r.index with
    | none => s
    | some agent =>
      if !agent.required_tools.isEmpty then
        { s with limitations := s.limitations ++ criticalLims r.index agent r }
      else s
  else s

/-- The external planning capability on the re-plan path
(`master_agent.run(limitations_prompt)` plus the JSON extraction and
validation, lines 275–287): from the accumulated limitation list, either
a new validated `MasterAgentConfig` or a raised exception's message. -/
abbrev Replan := List Limitation → Except String MasterAgentConfig

/-- Lines 289–295: on a successful re-plan, reset all execution state to
the new configuration.  The ghost trace is kept. -/
def resetState (newCfg : MasterAgentConfig) (s : SchedState) : SchedState :=
  { results := [], failed := [], limitations := [],
    remaining := (newCfg.agents.map (fun a => a.id)).dedup,
    agents := newCfg.agents, log := s.log }

/-- How one iteration of the wave loop ended. -/
inductive ExitKind where
  /-- `while remaining_agents` found the set empty. -/
  | completed
  /-- the empty-ready `break` of line 227 (circular dependency / missing
  agent diagnostic). -/
  | deadlocked
  /-- the `break` of line 295 after a successful re-plan. -/
  | replanned
  /-- an exception escaped the wave (`asyncio.gather` re-raised); it
  propagates to the handler at line 347. -/
  | waveError (e : String)
  /-- fuel exhausted (model artifact; shown unreachable for sufficient
  fuel). -/
  | fuelOut
deriving DecidableEq, Repr

/-- Result of one loop-body iteration: leave the loop, or continue. -/
inductive StepRes where
  | exit (s : SchedState) (k : ExitKind)
  | cont (s : SchedState)
deriving DecidableEq, Repr

/-- One iteration of the `while remaining_agents` body
(`src/main.py` lines 212–298), entered with `remaining` non-empty. -/
def stepBody (inv : Invoke) (replan : Replan) (s : SchedState) : StepRes :=
  let ready := computeReady s.agents s.results s.remaining
  if ready.isEmpty then .exit s .deadlocked
  else
    match runWave inv s.agents s.results ready with
    | .error e => .exit s (.waveError e)
    | .ok wave =>
      let s' := wave.foldl (fun st e => closeWaveStep st e.1) s
      let s' := { s' with log := s'.log ++ [wave] }
      if !s'.limitations.isEmpty then
        match replan s'.limitations with
        | .ok newCfg => .exit (resetState newCfg s') .replanned
        | .error _ => .cont s'
      else .cont s'

/-- The wave loop, by fuel: the `while remaining_agents` condition is
checked on entry to every iteration.  Each continuing iteration strictly
shrinks `remaining` (proved below), so any fuel of at least
`s.remaining.length` reaches a genuine exit. -/
def loopFuel (inv : Invoke) (replan : Replan) :
    Nat → SchedState → SchedState × ExitKind
  | 0, s => if s.remaining.isEmpty then (s, .completed) else (s, .fuelOut)
  | fuel + 1, s =>
    if s.remaining.isEmpty then (s, .completed)
    else
      match stepBody inv replan s with
      | .exit s' k => (s', k)
      | .cont s' => loopFuel inv replan fuel s'

/-- Lines 186–209: the execution state `main` sets up before entering
the loop (`results = {}`, `failed_agents = set()`,
`tool_limitations = []`, `remaining_agents = set(agent.id ...)`,
`agent_map`). -/
def initState (master_config : MasterAgentConfig) : SchedState :=
  { results := [], failed := [], limitations := [],
    remaining := (master_config.agents.map (fun a => a.id)).dedup,
    agents := master_config.agents, log := [] }

/-! ## Result aggregation (`src/main.py` lines 300–345) -/

/-- Lines 309–311: the verdict prompt header carrying the original
query. -/
def queryHeader (query : String) : String :=
  "\n        ORIGINAL QUERY: " ++ query ++ "\n        "

/-- Lines 313–325: the block appended for one agent result (type, focus,
status, output). -/
def agentBlock (r : AgentResult) : String :=
  "\n                AGENT: " ++ r.config.type
    ++ "\n                FOCUS: " ++ r.config.usecase
    ++ "\n                STATUS: " ++ r.status
    ++ "\n                \n                OUTPUT:\n                "
    ++ r.result ++ "\n                "

/-- CPython rendering of a non-empty set of small ints inside an
f-string: elements in hash order, which for small non-negative ints is
ascending numeric order. -/
def renderPySet (l : List Nat) : String :=
  "\x7b" ++ strJoin ", " ((l.mergeSort (fun a b => a ≤ b)).map toString) ++ "\x7d"

/-- Lines 327–331: the note appended when `failed_agents` is truthy. -/
def failedNote (failed : List Nat) : String :=
  "\n            NOTE: The following agents failed to complete their tasks: "
    ++ renderPySet failed
    ++ "\n            Their results may be incomplete or missing.\n            "

/-- Lines 333–337: the closing task block (verbatim, trailing spaces
included). -/
def taskBlock : String :=
  "\n        TASK: Analyze all agent responses provided above and produce a final, fully synthesized, actionable output that directly answers the original query with research evidences. Integrate all relevant information and perspectives from the agents equally—do not favor any single response. \n        Your response should not reflect on summary or the inputs—instead, deliver a clear, structured, and technically accurate final result as if you were the final decision-maker. Combine the best ideas, resolve overlaps or conflicts, and generate a unified, high-value deliverable for the user. \n        This is not a commentary—this is the final product.\n        "

/-- Lines 309–337: the full verdict prompt, folded over
`child_results = list(results.values())` in stored order. -/
def buildVerdictPrompt (query : String) (child_results : List AgentResult)
    (failed : List Nat) : String :=
  let p := queryHeader query
  let p := child_results.foldl (fun acc r => acc ++ agentBlock r) p
  let p := if failed.isEmpty then p else p ++ failedNote failed
  p ++ taskBlock

/-- Outcome of one pipeline run after the graph is in hand.  `verdict`
is the synthesis input handed to the final verdict capability, or
`none` when an escaped exception jumped to the handler of line 347 and
the run ended without aggregation. -/
structure PipelineResult where
  state : SchedState
  exit : ExitKind
  verdict : Option String
deriving DecidableEq, Repr

/-- `main` from the point the validated `master_config` exists
(line 186) to the verdict prompt (line 337): run the wave loop, then —
unless an exception escaped a wave — aggregate whatever results exist.
The loop is given fuel `remaining.length`, which the termination
theorem below shows is always sufficient. -/
def runPipeline (inv : Invoke) (replan : Replan) (query : String)
    (master_config : MasterAgentConfig) : PipelineResult :=
  let s0 := initState master_config
  let (s, k) := loopFuel inv replan s0.remaining.length s0
  match k with
  | .waveError e => { state := s, exit := .waveError e, verdict := none }
  | .fuelOut => { state := s, exit := .fuelOut, verdict := none }
  | _ =>
    { state := s, exit := k,
      verdict := some (buildVerdictPrompt query (s.results.map Prod.snd) s.failed) }

end Rao

/-! ## Helper lemmas -/

namespace Rao

theorem exMapM_nil {α β : Type} (f : α → Except String β) : exMapM f [] = .ok [] := rfl

theorem exMapM_ok_mem {α β : Type} (f : α → Except String β) :
    ∀ {l : List α} {out : List β}, exMapM f l = .ok out →
      ∀ y ∈ out, ∃ x ∈ l, f x = .ok y := by
  intro l
  induction l with
  | nil =>
    intro out h y hy
    simp only [exMapM] at h
    cases h
    simp at hy
  | cons x xs ih =>
    intro out h y hy
    simp only [exMapM] at h
    cases hx : f x with
    | error e => rw [hx] at h; cases h
    | ok z =>
      rw [hx] at h
      cases hxs : exMapM f xs with
      | error e => rw [hxs] at h; cases h
      | ok zs =>
        rw [hxs] at h
        cases h
        rcases List.mem_cons.mp hy with h1 | h2
        · exact ⟨x, List.mem_cons_self x xs, h1 ▸ hx⟩
        · rcases ih hxs y h2 with ⟨w, hw, hfw⟩
          exact ⟨w, List.mem_cons_of_mem x hw, hfw⟩

theorem exMapM_ok_of_mem {α β : Type} (f : α → Except String β) :
    ∀ {l : List α} {out : List β}, exMapM f l = .ok out →
      ∀ x ∈ l, ∃ y ∈ out, f x = .ok y := by
  intro l
  induction l with
  | nil => intro out _ x hx; simp at hx
  | cons z zs ih =>
    intro out h x hx
    simp only [exMapM] at h
    cases hz : f z with
    | error e => rw [hz] at h; cases h
    | ok y =>
      rw [hz] at h
      cases hzs : exMapM f zs with
      | error e => rw [hzs] at h; cases h
      | ok ys =>
        rw [hzs] at h
        cases h
        rcases List.mem_cons.mp hx with h1 | h2
        · exact ⟨y, List.mem_cons_self y ys, h1 ▸ hz⟩
        · rcases ih hzs x h2 with ⟨w, hw, hfw⟩
          exact ⟨w, List.mem_cons_of_mem y hw, hfw⟩

theorem exMapM_error_of_mem {α β : Type} (f : α → Except String β) :
    ∀ {l : List α} {x : α} {e : String}, x ∈ l → f x = .error e →
      ∃ e', exMapM f l = .error e' := by
  intro l
  induction l with
  | nil => intro x e hx; simp at hx
  | cons z zs ih =>
    intro x e hx hfx
    rcases List.mem_cons.mp hx with h1 | h2
    · subst h1
      exact ⟨e, by simp only [exMapM, hfx]⟩
    · cases hz : f z with
      | error e' => exact ⟨e', by simp only [exMapM, hz]⟩
      | ok y =>
        rcases ih h2 hfx with ⟨e', he'⟩
        exact ⟨e', by simp only [exMapM, hz, he']⟩

theorem exMapM_ok_of_forall {α β : Type} (f : α → Except String β) :
    ∀ {l : List α}, (∀ x ∈ l, ∃ y, f x = .ok y) →
      ∃ out, exMapM f l = .ok out := by
  intro l
  induction l with
  | nil => intro _; exact ⟨[], rfl⟩
  | cons z zs ih =>
    intro h
    rcases h z (List.mem_cons_self z zs) with ⟨y, hy⟩
    rcases ih (fun x hx => h x (List.mem_cons_of_mem z hx)) with ⟨ys, hys⟩
    exact ⟨y :: ys, by simp only [exMapM, hy, hys]⟩

theorem exMapM_cons_ok {α β : Type} {f : α → Except String β} {x : α} {xs : List α}
    {out : List β} (h : exMapM f (x :: xs) = .ok out) :
    ∃ y ys, out = y :: ys ∧ f x = .ok y ∧ exMapM f xs = .ok ys := by
  simp only [exMapM] at h
  cases hx : f x with
  | error e => rw [hx] at h; cases h
  | ok y =>
    rw [hx] at h
    cases hxs : exMapM f xs with
    | error e => rw [hxs] at h; cases h
    | ok ys => rw [hxs] at h; cases h; exact ⟨y, ys, rfl, rfl, rfl⟩

theorem lookupRes_nil (i : Nat) : lookupRes [] i = none := rfl

theorem lookupRes_mem {m : ResultsMap} {i : Nat} {r : AgentResult}
    (h : lookupRes m i = some r) : (i, r) ∈ m := by
  simp only [lookupRes, Option.map_eq_some'] at h
  rcases h with ⟨e, he, her⟩
  have hmem := List.mem_of_find?_eq_some he
  have hp := List.find?_some he
  have : e = (i, r) := by
    rcases e with ⟨a, b⟩
    simp only at her
    simp only [beq_iff_eq] at hp
    simp [hp, her]
  exact this ▸ hmem

theorem lookupRes_ne_nil {m : ResultsMap} {i : Nat} {r : AgentResult}
    (h : lookupRes m i = some r) : m.isEmpty = false := by
  have := lookupRes_mem h
  cases m with
  | nil => simp at this
  | cons x xs => rfl

theorem lookupRes_append {m1 m2 : ResultsMap} {i : Nat} {r : AgentResult}
    (h : lookupRes (m1 ++ m2) i = some r) :
    lookupRes m1 i = some r ∨ (lookupRes m1 i = none ∧ lookupRes m2 i = some r) := by
  simp only [lookupRes, List.find?_append] at h ⊢
  cases h1 : m1.find? (fun e => e.1 == i) with
  | some e => rw [h1] at h; simp only [Option.or] at h; left; exact h
  | none => rw [h1] at h; simp only [Option.or] at h; right; exact ⟨rfl, h⟩

theorem strJoin_split {sep : String} :
    ∀ {l : List String} {x : String}, x ∈ l →
      ∃ pre post, strJoin sep l = pre ++ (x ++ post) := by
  intro l
  induction l with
  | nil => intro x hx; simp at hx
  | cons z zs ih =>
    intro x hx
    cases zs with
    | nil =>
      rcases List.mem_cons.mp hx with h1 | h2
      · subst h1
        exact ⟨"", "", by rw [String.empty_append, String.append_empty]; rfl⟩
      · simp at h2
    | cons w ws =>
      rcases List.mem_cons.mp hx with h1 | h2
      · subst h1
        refine ⟨"", sep ++ strJoin sep (w :: ws), ?_⟩
        rw [String.empty_append, ← String.append_assoc]
        rfl
      · rcases ih h2 with ⟨pre, post, hpp⟩
        refine ⟨z ++ sep ++ pre, post, ?_⟩
        show z ++ sep ++ strJoin sep (w :: ws) = z ++ sep ++ pre ++ (x ++ post)
        rw [hpp, String.append_assoc (z ++ sep) pre (x ++ post)]


theorem invokeWithFallback_index (inv : Invoke) (cfg : AgentConfig) (idx : Nat)
    (p : String) : (invokeWithFallback inv cfg idx p).index = idx := by
  simp only [invokeWithFallback]
  cases inv cfg p with
  | ok content => rfl
  | error e =>
    by_cases h : pyTruthyStr cfg.fallback_strategy
    · simp only [h, if_true]
      cases inv cfg (fallbackRetryPrompt e (cfg.fallback_strategy.getD "")) <;> rfl
    · simp only [h, if_false]
      rfl

theorem invokeWithFallback_config (inv : Invoke) (cfg : AgentConfig) (idx : Nat)
    (p : String) : (invokeWithFallback inv cfg idx p).config = cfg := by
  simp only [invokeWithFallback]
  cases inv cfg p with
  | ok content => rfl
  | error e =>
    by_cases h : pyTruthyStr cfg.fallback_strategy
    · simp only [h, if_true]
      cases inv cfg (fallbackRetryPrompt e (cfg.fallback_strategy.getD "")) <;> rfl
    · simp only [h, if_false]
      rfl

theorem run_child_agentL_ok {inv : Invoke} {cfg : AgentConfig} {idx : Nat}
    {pr : ResultsMap} {e : AgentResult × String}
    (h : run_child_agentL inv cfg idx pr = .ok e) :
    composePrompt cfg idx pr = .ok e.2 ∧ e.1 = invokeWithFallback inv cfg idx e.2 := by
  simp only [run_child_agentL] at h
  cases hc : composePrompt cfg idx pr with
  | error err => rw [hc] at h; cases h
  | ok p => rw [hc] at h; cases h; exact ⟨rfl, rfl⟩

theorem closeWaveStep_results (s : SchedState) (r : AgentResult) :
    (closeWaveStep s r).results = s.results ++ [(r.index, r)] := by
  simp only [closeWaveStep]
  split <;> [skip; rfl]
  split <;> split <;> first | rfl | (split <;> rfl)

theorem closeWaveStep_remaining (s : SchedState) (r : AgentResult) :
    (closeWaveStep s r).remaining = s.remaining.erase r.index := by
  simp only [closeWaveStep]
  split <;> [skip; rfl]
  split <;> split <;> first | rfl | (split <;> rfl)

theorem closeWaveStep_agents (s : SchedState) (r : AgentResult) :
    (closeWaveStep s r).agents = s.agents := by
  simp only [closeWaveStep]
  split <;> [skip; rfl]
  split <;> split <;> first | rfl | (split <;> rfl)

theorem closeWaveStep_log (s : SchedState) (r : AgentResult) :
    (closeWaveStep s r).log = s.log := by
  simp only [closeWaveStep]
  split <;> [skip; rfl]
  split <;> split <;> first | rfl | (split <;> rfl)

theorem foldClose_results (wave : List (AgentResult × String)) :
    ∀ s : SchedState,
      (wave.foldl (fun st e => closeWaveStep st e.1) s).results =
        s.results ++ wave.map (fun e => (e.1.index, e.1)) := by
  induction wave with
  | nil => intro s; simp
  | cons e rest ih =>
    intro s
    simp only [List.foldl_cons, List.map_cons]
    rw [ih, closeWaveStep_results, List.append_assoc, List.singleton_append]

theorem foldClose_agents (wave : List (AgentResult × String)) :
    ∀ s : SchedState,
      (wave.foldl (fun st e => closeWaveStep st e.1) s).agents = s.agents := by
  induction wave with
  | nil => intro s; rfl
  | cons e rest ih =>
    intro s
    simp only [List.foldl_cons]
    rw [ih, closeWaveStep_agents]

theorem foldClose_log (wave : List (AgentResult × String)) :
    ∀ s : SchedState,
      (wave.foldl (fun st e => closeWaveStep st e.1) s).log = s.log := by
  induction wave with
  | nil => intro s; rfl
  | cons e rest ih =>
    intro s
    simp only [List.foldl_cons]
    rw [ih, closeWaveStep_log]

theorem foldClose_remaining (wave : List (AgentResult × String)) :
    ∀ s : SchedState,
      (wave.foldl (fun st e => closeWaveStep st e.1) s).remaining =
        wave.foldl (fun rem e => rem.erase e.1.index) s.remaining := by
  induction wave with
  | nil => intro s; rfl
  | cons e rest ih =>
    intro s
    simp only [List.foldl_cons]
    rw [ih, closeWaveStep_remaining]

theorem length_erase_le (a : Nat) (l : List Nat) : (l.erase a).length ≤ l.length := by
  by_cases h : a ∈ l
  · have := List.length_erase_add_one h
    omega
  · rw [List.erase_of_not_mem h]

theorem foldlErase_length_le (wave : List (AgentResult × String)) :
    ∀ l : List Nat,
      (wave.foldl (fun rem e => rem.erase e.1.index) l).length ≤ l.length := by
  induction wave with
  | nil => intro l; exact Nat.le_refl _
  | cons e rest ih =>
    intro l
    simp only [List.foldl_cons]
    exact Nat.le_trans (ih _) (length_erase_le _ _)

theorem foldlErase_mem (wave : List (AgentResult × String)) :
    ∀ (l : List Nat) (i : Nat),
      i ∈ wave.foldl (fun rem e => rem.erase e.1.index) l → i ∈ l := by
  induction wave with
  | nil => intro l i h; exact h
  | cons e rest ih =>
    intro l i h
    simp only [List.foldl_cons] at h
    exact List.mem_of_mem_erase (ih _ _ h)

theorem is_ready_iff {agents : List AgentConfig} {results : ResultsMap} {i : Nat}
    {cfg : AgentConfig} (hl : agentMapLookup agents i = some cfg) :
    is_ready agents results i = true ↔
      ∀ p ∈ cfg.relies_on, (lookupRes results p).isSome = true := by
  simp only [is_ready, hl]
  constructor
  · intro h p hp
    rcases Bool.or_eq_true_iff.mp h with h1 | h2
    · rw [List.isEmpty_iff.mp h1] at hp
      simp at hp
    · exact List.all_eq_true.mp h2 p hp
  · intro h
    apply Bool.or_eq_true_iff.mpr
    right
    exact List.all_eq_true.mpr h


theorem buildParentContexts_ok (idx : Nat) {relies : List Nat} {pr : ResultsMap}
    (h : ∀ p ∈ relies, (lookupRes pr p).isSome = true) :
    ∃ blocks, buildParentContexts idx relies pr = .ok blocks := by
  simp only [buildParentContexts]
  apply exMapM_ok_of_forall
  intro x hx
  rcases Option.isSome_iff_exists.mp (h x hx) with ⟨r, hr⟩
  exact ⟨parentBlock x r.config r.result, by rw [hr]⟩

theorem buildParentContexts_mem {idx : Nat} {relies : List Nat} {pr : ResultsMap}
    {blocks : List String} {b : Nat} {rB : AgentResult}
    (h : buildParentContexts idx relies pr = .ok blocks) (hb : b ∈ relies)
    (hlook : lookupRes pr b = some rB) :
    parentBlock b rB.config rB.result ∈ blocks := by
  rcases exMapM_ok_of_mem _ h b hb with ⟨y, hy, hfy⟩
  rw [hlook] at hfy
  cases hfy
  exact hy

theorem buildParentContexts_error (idx : Nat) {relies : List Nat} {pr : ResultsMap}
    {b : Nat} (hb : b ∈ relies) (hlook : lookupRes pr b = none) :
    ∃ e, buildParentContexts idx relies pr = .error e := by
  simp only [buildParentContexts]
  apply exMapM_error_of_mem _ hb
  rw [hlook]

theorem addToolContext_split (cfg : AgentConfig) :
    ∃ suffix, ∀ base, addToolContext cfg base = base ++ suffix := by
  simp only [addToolContext]
  by_cases h1 : (!cfg.required_tools.isEmpty) = true
  · simp only [h1, if_true]
    by_cases h2 : pyTruthyStr cfg.fallback_strategy = true
    · refine ⟨"\n\nTool Requirements:\n"
        ++ strJoin "\n" (cfg.required_tools.map toolInfoLines).flatten
        ++ "\n\nFallback Strategy: " ++ cfg.fallback_strategy.getD "", fun base => ?_⟩
      simp only [h2, if_true]
      simp only [String.append_assoc]
    · have h2f : pyTruthyStr cfg.fallback_strategy = false := by
        revert h2; cases pyTruthyStr cfg.fallback_strategy <;> simp
      refine ⟨"\n\nTool Requirements:\n"
        ++ strJoin "\n" (cfg.required_tools.map toolInfoLines).flatten, fun base => ?_⟩
      simp [h2f, String.append_assoc]
  · simp only [h1, if_false]
    exact ⟨"", fun base => (String.append_empty base).symm⟩

theorem composePrompt_eq_ok {cfg : AgentConfig} {idx : Nat} {pr : ResultsMap}
    {q : String} (h : composePrompt cfg idx pr = .ok q) :
    ∃ fp, composeParentStage cfg idx pr = .ok fp ∧ q = addToolContext cfg fp := by
  simp only [composePrompt] at h
  cases hs : composeParentStage cfg idx pr with
  | error e => rw [hs] at h; cases h
  | ok fp => rw [hs] at h; cases h; exact ⟨fp, rfl, rfl⟩

theorem composeParentStage_ok_of_deps (idx : Nat) {cfg : AgentConfig} {pr : ResultsMap}
    (h : ∀ p ∈ cfg.relies_on, (lookupRes pr p).isSome = true) :
    ∃ fp, composeParentStage cfg idx pr = .ok fp := by
  simp only [composeParentStage]
  by_cases hc : (!pr.isEmpty && !cfg.relies_on.isEmpty) = true
  · rw [if_pos hc]
    rcases buildParentContexts_ok idx h with ⟨blocks, hb⟩
    rw [hb]
    exact ⟨_, rfl⟩
  · rw [if_neg hc]
    exact ⟨_, rfl⟩

theorem composePrompt_ok_of_deps (idx : Nat) {cfg : AgentConfig} {pr : ResultsMap}
    (h : ∀ p ∈ cfg.relies_on, (lookupRes pr p).isSome = true) :
    ∃ q, composePrompt cfg idx pr = .ok q := by
  rcases composeParentStage_ok_of_deps idx h with ⟨fp, hfp⟩
  simp only [composePrompt]
  rw [hfp]
  exact ⟨_, rfl⟩

theorem composeParentStage_split {cfg : AgentConfig} {idx : Nat} {pr : ResultsMap}
    {fp : String} (hpr : pr.isEmpty = false) (hrel : cfg.relies_on.isEmpty = false)
    (h : composeParentStage cfg idx pr = .ok fp) :
    ∃ blocks, buildParentContexts idx cfg.relies_on pr = .ok blocks ∧
      fp = strJoin "\n\n" blocks ++ "\n\n" ++ cfg.prompt := by
  simp only [composeParentStage] at h
  have hc : (!pr.isEmpty && !cfg.relies_on.isEmpty) = true := by
    simp [hpr, hrel]
  rw [if_pos hc] at h
  cases hb : buildParentContexts idx cfg.relies_on pr with
  | error e => rw [hb] at h; cases h
  | ok blocks => rw [hb] at h; cases h; exact ⟨blocks, rfl, rfl⟩

theorem composePrompt_ok_split {cfg : AgentConfig} {idx : Nat} {pr : ResultsMap}
    {q : String} (hpr : pr.isEmpty = false) (hrel : cfg.relies_on.isEmpty = false)
    (h : composePrompt cfg idx pr = .ok q) :
    ∃ blocks suffix, buildParentContexts idx cfg.relies_on pr = .ok blocks ∧
      q = strJoin "\n\n" blocks ++ suffix := by
  rcases composePrompt_eq_ok h with ⟨fp, hfp, hq⟩
  rcases composeParentStage_split hpr hrel hfp with ⟨blocks, hb, hfpeq⟩
  rcases addToolContext_split cfg with ⟨suffix, hsuf⟩
  refine ⟨blocks, "\n\n" ++ cfg.prompt ++ suffix, hb, ?_⟩
  rw [hq, hsuf, hfpeq]
  simp only [String.append_assoc]

theorem composePrompt_error_of_missing (idx : Nat) {cfg : AgentConfig}
    {pr : ResultsMap} {b : Nat} (hpr : pr.isEmpty = false)
    (hb : b ∈ cfg.relies_on) (hlook : lookupRes pr b = none) :
    ∃ e, composePrompt cfg idx pr = .error e := by
  have hrel : cfg.relies_on.isEmpty = false := by
    cases hrl : cfg.relies_on with
    | nil => rw [hrl] at hb; simp at hb
    | cons x xs => rfl
  have hc : (!pr.isEmpty && !cfg.relies_on.isEmpty) = true := by
    simp [hpr, hrel]
  rcases buildParentContexts_error idx hb hlook with ⟨e, he⟩
  refine ⟨e, ?_⟩
  simp only [composePrompt, composeParentStage]
  rw [if_pos hc, he]

theorem run_child_agent_error_of_missing {inv : Invoke} {cfg : AgentConfig}
    {idx : Nat} {pr : ResultsMap} {b : Nat} (hpr : pr.isEmpty = false)
    (hb : b ∈ cfg.relies_on) (hlook : lookupRes pr b = none) :
    ∃ e, run_child_agent inv cfg idx pr = .error e := by
  rcases composePrompt_error_of_missing idx hpr hb hlook with ⟨e, he⟩
  refine ⟨e, ?_⟩
  simp only [run_child_agent, run_child_agentL]
  rw [he]
  rfl

theorem runWave_ok_mem {inv : Invoke} {agents : List AgentConfig}
    {results : ResultsMap} {ready : List Nat} {wave : List (AgentResult × String)}
    (h : runWave inv agents results ready = .ok wave) :
    ∀ e ∈ wave, ∃ i ∈ ready, ∃ cfg, agentMapLookup agents i = some cfg ∧
      run_child_agentL inv cfg i results = .ok e := by
  intro e he
  rcases exMapM_ok_mem _ h e he with ⟨i, hi, hfi⟩
  cases hl : agentMapLookup agents i with
  | none => rw [hl] at hfi; cases hfi
  | some cfg => rw [hl] at hfi; exact ⟨i, hi, cfg, hl, hfi⟩

theorem runWave_error_of_mem {inv : Invoke} {agents : List AgentConfig}
    {results : ResultsMap} {ready : List Nat} {i : Nat} {cfg : AgentConfig} {e : String}
    (hi : i ∈ ready) (hl : agentMapLookup agents i = some cfg)
    (hrun : run_child_agentL inv cfg i results = .error e) :
    ∃ e', runWave inv agents results ready = .error e' := by
  apply exMapM_error_of_mem _ hi
  rw [hl]
  exact hrun

theorem runWave_ok_of_ready (inv : Invoke) {agents : List AgentConfig}
    {results : ResultsMap} {ready : List Nat}
    (hmap : ∀ i ∈ ready, (agentMapLookup agents i).isSome = true)
    (hrdy : ∀ i ∈ ready, is_ready agents results i = true) :
    ∃ wave, runWave inv agents results ready = .ok wave := by
  apply exMapM_ok_of_forall
  intro i hi
  rcases Option.isSome_iff_exists.mp (hmap i hi) with ⟨cfg, hcfg⟩
  have hdeps := (is_ready_iff hcfg).mp (hrdy i hi)
  rcases composePrompt_ok_of_deps i hdeps with ⟨q, hq⟩
  refine ⟨(invokeWithFallback inv cfg i q, q), ?_⟩
  rw [hcfg]
  simp only [run_child_agentL]
  rw [hq]


/-- The state after closing a wave and logging it (the value bound in
`stepBody` before the re-plan check). -/
def afterWave (s : SchedState) (wave : List (AgentResult × String)) : SchedState :=
  let s1 := wave.foldl (fun st e => closeWaveStep st e.1) s
  { s1 with log := s1.log ++ [wave] }

theorem stepBody_eq (inv : Invoke) (replan : Replan) (s : SchedState) :
    stepBody inv replan s =
      if (computeReady s.agents s.results s.remaining).isEmpty then .exit s .deadlocked
      else
        match runWave inv s.agents s.results (computeReady s.agents s.results s.remaining) with
        | .error e => .exit s (.waveError e)
        | .ok wave =>
          if !(afterWave s wave).limitations.isEmpty then
            match replan (afterWave s wave).limitations with
            | .ok newCfg => .exit (resetState newCfg (afterWave s wave)) .replanned
            | .error _ => .cont (afterWave s wave)
          else .cont (afterWave s wave) := by
  simp only [stepBody, afterWave]

theorem afterWave_results (s : SchedState) (wave : List (AgentResult × String)) :
    (afterWave s wave).results = s.results ++ wave.map (fun e => (e.1.index, e.1)) := by
  simp only [afterWave]
  exact foldClose_results wave s

theorem afterWave_agents (s : SchedState) (wave : List (AgentResult × String)) :
    (afterWave s wave).agents = s.agents := by
  simp only [afterWave]
  exact foldClose_agents wave s

theorem afterWave_log (s : SchedState) (wave : List (AgentResult × String)) :
    (afterWave s wave).log = s.log ++ [wave] := by
  simp only [afterWave]
  rw [foldClose_log]

theorem afterWave_remaining (s : SchedState) (wave : List (AgentResult × String)) :
    (afterWave s wave).remaining =
      wave.foldl (fun rem e => rem.erase e.1.index) s.remaining := by
  simp only [afterWave]
  exact foldClose_remaining wave s

theorem bool_not_true {b : Bool} (h : ¬(b = true)) : b = false := by
  cases b
  · rfl
  · exact absurd rfl h

theorem stepBody_cont_afterWave {inv : Invoke} {replan : Replan} {s s' : SchedState}
    (h : stepBody inv replan s = .cont s') :
    ∃ wave, runWave inv s.agents s.results
        (computeReady s.agents s.results s.remaining) = .ok wave ∧
      s' = afterWave s wave ∧
      (computeReady s.agents s.results s.remaining).isEmpty = false := by
  rw [stepBody_eq] at h
  split at h
  · cases h
  next hc =>
    split at h
    · cases h
    next wave heq =>
      refine ⟨wave, heq, ?_, bool_not_true hc⟩
      split at h
      · split at h
        · cases h
        · cases h; rfl
      · cases h; rfl

theorem stepBody_exit_cases {inv : Invoke} {replan : Replan} {s s' : SchedState}
    {k : ExitKind} (h : stepBody inv replan s = .exit s' k) :
    (k = .deadlocked ∧ s' = s) ∨ (∃ e, k = .waveError e ∧ s' = s) ∨
      (k = .replanned ∧ ∃ newCfg wave,
        runWave inv s.agents s.results
          (computeReady s.agents s.results s.remaining) = .ok wave ∧
        s' = resetState newCfg (afterWave s wave)) := by
  rw [stepBody_eq] at h
  split at h
  · cases h
    exact Or.inl ⟨rfl, rfl⟩
  · split at h
    next e heq =>
      cases h
      exact Or.inr (Or.inl ⟨e, rfl, rfl⟩)
    next wave heq =>
      split at h
      · split at h
        next newCfg hr =>
          cases h
          exact Or.inr (Or.inr ⟨rfl, newCfg, wave, heq, rfl⟩)
        next err hr => cases h
      · cases h

theorem stepBody_cont_shrinks {inv : Invoke} {replan : Replan} {s s' : SchedState}
    (h : stepBody inv replan s = .cont s') :
    s'.remaining.length < s.remaining.length := by
  rcases stepBody_cont_afterWave h with ⟨wave, hw, hs', hne⟩
  subst hs'
  rw [afterWave_remaining]
  cases hr : computeReady s.agents s.results s.remaining with
  | nil => rw [hr] at hne; cases hne
  | cons i is =>
    rw [hr] at hw
    simp only [runWave] at hw
    rcases exMapM_cons_ok hw with ⟨ef, rest, hwave, hfi, _⟩
    subst hwave
    have hidx : ef.1.index = i := by
      cases hl : agentMapLookup s.agents i with
      | none => rw [hl] at hfi; cases hfi
      | some cfg =>
        rw [hl] at hfi
        rcases run_child_agentL_ok hfi with ⟨_, hinv⟩
        rw [hinv, invokeWithFallback_index]
    have hmem : i ∈ s.remaining := by
      have hmem0 : i ∈ computeReady s.agents s.results s.remaining := by
        rw [hr]; exact List.mem_cons_self i is
      exact List.mem_of_mem_filter hmem0
    simp only [List.foldl_cons, hidx]
    have h1 := foldlErase_length_le rest (s.remaining.erase i)
    have h2 := List.length_erase_add_one hmem
    omega

theorem stepBody_cont_agents {inv : Invoke} {replan : Replan} {s s' : SchedState}
    (h : stepBody inv replan s = .cont s') :
    s'.agents = s.agents ∧ ∀ i ∈ s'.remaining, i ∈ s.remaining := by
  rcases stepBody_cont_afterWave h with ⟨wave, _, hs', _⟩
  subst hs'
  constructor
  · exact afterWave_agents s wave
  · intro i hi
    rw [afterWave_remaining] at hi
    exact foldlErase_mem wave s.remaining i hi

theorem stepBody_no_waveError {inv : Invoke} {replan : Replan} {s : SchedState}
    (hmap : ∀ i ∈ s.remaining, (agentMapLookup s.agents i).isSome = true) :
    ∀ s' e, stepBody inv replan s ≠ .exit s' (.waveError e) := by
  intro s' e h
  have hsub : ∀ i ∈ computeReady s.agents s.results s.remaining, i ∈ s.remaining :=
    fun i hi => List.mem_of_mem_filter hi
  have hrdy : ∀ i ∈ computeReady s.agents s.results s.remaining,
      is_ready s.agents s.results i = true :=
    fun i hi => List.of_mem_filter hi
  rcases runWave_ok_of_ready inv
      (fun i hi => hmap i (hsub i hi)) hrdy with ⟨wave, hwok⟩
  rw [stepBody_eq] at h
  split at h
  · cases h
  · split at h
    next e' heq => rw [heq] at hwok; cases hwok
    next wave' heq =>
      split at h
      · split at h
        · cases h
        · cases h
      · cases h

theorem loopFuel_empty {inv : Invoke} {replan : Replan} {fuel : Nat} {s : SchedState}
    (he : s.remaining.isEmpty = true) :
    loopFuel inv replan fuel s = (s, .completed) := by
  cases fuel with
  | zero => rw [loopFuel, if_pos he]
  | succ n => rw [loopFuel, if_pos he]

theorem loopFuel_zero {inv : Invoke} {replan : Replan} {s : SchedState}
    (he : s.remaining.isEmpty = false) :
    loopFuel inv replan 0 s = (s, .fuelOut) := by
  rw [loopFuel, if_neg (by simp [he])]

theorem loopFuel_succ {inv : Invoke} {replan : Replan} {n : Nat} {s : SchedState}
    (he : s.remaining.isEmpty = false) :
    loopFuel inv replan (n + 1) s =
      match stepBody inv replan s with
      | .exit s' k => (s', k)
      | .cont s' => loopFuel inv replan n s' := by
  rw [loopFuel, if_neg (by simp [he])]

theorem loopFuel_exits (inv : Invoke) (replan : Replan) :
    ∀ (fuel : Nat) (s : SchedState), s.remaining.length ≤ fuel →
      (∀ i ∈ s.remaining, (agentMapLookup s.agents i).isSome = true) →
      (loopFuel inv replan fuel s).2 = .completed ∨
      (loopFuel inv replan fuel s).2 = .deadlocked ∨
      (loopFuel inv replan fuel s).2 = .replanned := by
  intro fuel
  induction fuel with
  | zero =>
    intro s hlen _
    have he : s.remaining.isEmpty = true := by
      cases hr : s.remaining with
      | nil => rfl
      | cons x xs => rw [hr] at hlen; simp at hlen
    rw [loopFuel_empty he]
    exact Or.inl rfl
  | succ n ih =>
    intro s hlen hmap
    by_cases he : s.remaining.isEmpty = true
    · rw [loopFuel_empty he]
      exact Or.inl rfl
    · rw [loopFuel_succ (bool_not_true he)]
      cases hstep : stepBody inv replan s with
      | exit s' k =>
        rcases stepBody_exit_cases hstep with ⟨hk, _⟩ | ⟨e, hk, _⟩ | ⟨hk, _⟩
        · exact Or.inr (Or.inl hk)
        · exact absurd hstep (hk ▸ stepBody_no_waveError hmap s' e)
        · exact Or.inr (Or.inr hk)
      | cont s' =>
        have hshrink := stepBody_cont_shrinks hstep
        rcases stepBody_cont_agents hstep with ⟨hag, hsub⟩
        exact ih s' (by omega) (fun i hi => hag ▸ hmap i (hsub i hi))

theorem loopFuel_completed_empty (inv : Invoke) (replan : Replan) :
    ∀ (fuel : Nat) (s : SchedState),
      (loopFuel inv replan fuel s).2 = .completed →
      (loopFuel inv replan fuel s).1.remaining = [] := by
  intro fuel
  induction fuel with
  | zero =>
    intro s h
    by_cases he : s.remaining.isEmpty = true
    · rw [loopFuel_empty he]
      exact List.isEmpty_iff.mp he
    · rw [loopFuel_zero (bool_not_true he)] at h
      cases h
  | succ n ih =>
    intro s h
    by_cases he : s.remaining.isEmpty = true
    · rw [loopFuel_empty he]
      exact List.isEmpty_iff.mp he
    · rw [loopFuel_succ (bool_not_true he)] at h ⊢
      cases hstep : stepBody inv replan s with
      | exit s' k =>
        rw [hstep] at h
        have hk' : k = ExitKind.completed := h
        rcases stepBody_exit_cases hstep with ⟨hk, _⟩ | ⟨e, hk, _⟩ | ⟨hk, _⟩ <;>
          rw [hk] at hk' <;> cases hk'
      | cont s' =>
        rw [hstep] at h
        exact ih s' h

/-! ## The cross-wave dependency invariant -/

/-- Every stored result is the result of an agent launched in some
earlier logged wave, under its own index. -/
def ResultsLogged (s : SchedState) : Prop :=
  ∀ b rB, lookupRes s.results b = some rB →
    ∃ (wB : Nat) (hB : wB < s.log.length) (eB : AgentResult × String),
      eB ∈ s.log.get ⟨wB, hB⟩ ∧ eB.1.index = b ∧ eB.1 = rB

/-- Every logged launch observed, for each of its declared dependencies,
a strictly earlier wave containing that dependency, and its composed
prompt embeds that dependency's labelled context block. -/
def PromptsGood (log : List (List (AgentResult × String))) : Prop :=
  ∀ (wA : Nat) (hA : wA < log.length), ∀ e ∈ log.get ⟨wA, hA⟩,
    ∀ b ∈ e.1.config.relies_on,
      ∃ (wB : Nat) (hB : wB < log.length) (eB : AgentResult × String),
        eB ∈ log.get ⟨wB, hB⟩ ∧ wB < wA ∧ eB.1.index = b ∧
        ∃ pre post, e.2 = pre ++ (parentBlock b eB.1.config eB.1.result ++ post)

theorem get_eq_of_list_eq {α : Type} {l l' : List α} (h : l = l') (i : Nat)
    (hi : i < l.length) (hi' : i < l'.length) : l.get ⟨i, hi⟩ = l'.get ⟨i, hi'⟩ := by
  subst h
  rfl

theorem get_append_left_eq {α : Type} (l1 l2 : List α) (i : Nat) (h1 : i < l1.length)
    (h2 : i < (l1 ++ l2).length) : (l1 ++ l2).get ⟨i, h2⟩ = l1.get ⟨i, h1⟩ := by
  simp [List.get_eq_getElem, List.getElem_append_left h1]

theorem get_append_last_eq {α : Type} (l : List α) (x : α)
    (h : l.length < (l ++ [x]).length) : (l ++ [x]).get ⟨l.length, h⟩ = x := by
  simp [List.get_eq_getElem]

theorem lookupRes_waveMap {wave : List (AgentResult × String)} {b : Nat}
    {rB : AgentResult}
    (h : lookupRes (wave.map (fun e => (e.1.index, e.1))) b = some rB) :
    ∃ e ∈ wave, e.1.index = b ∧ e.1 = rB := by
  have hmem := lookupRes_mem h
  rcases List.mem_map.mp hmem with ⟨e, he, heq⟩
  rcases Prod.mk.injEq _ _ _ _ ▸ heq with ⟨h1, h2⟩
  exact ⟨e, he, h1, h2⟩

theorem afterWave_inv {inv : Invoke} {s : SchedState}
    {wave : List (AgentResult × String)}
    (hRL : ResultsLogged s) (hPG : PromptsGood s.log)
    (hwave : runWave inv s.agents s.results
      (computeReady s.agents s.results s.remaining) = .ok wave) :
    ResultsLogged (afterWave s wave) ∧ PromptsGood (afterWave s wave).log := by
  have hres := afterWave_results s wave
  have hlog := afterWave_log s wave
  have hlen : (afterWave s wave).log.length = s.log.length + 1 := by
    rw [hlog]; simp
  constructor
  · -- ResultsLogged
    intro b rB h
    rw [hres] at h
    rcases lookupRes_append h with hold | ⟨_, hnew⟩
    · rcases hRL b rB hold with ⟨wB, hB, eB, hmem, hidx, heq⟩
      have hB' : wB < (afterWave s wave).log.length := by omega
      have hB2 : wB < (s.log ++ [wave]).length := by simp; omega
      refine ⟨wB, hB', eB, ?_, hidx, heq⟩
      rw [get_eq_of_list_eq hlog wB hB' hB2,
        get_append_left_eq s.log [wave] wB hB hB2]
      exact hmem
    · rcases lookupRes_waveMap hnew with ⟨e, he, hidx, heq⟩
      have hB' : s.log.length < (afterWave s wave).log.length := by omega
      have hB2 : s.log.length < (s.log ++ [wave]).length := by simp
      refine ⟨s.log.length, hB', e, ?_, hidx, heq⟩
      rw [get_eq_of_list_eq hlog s.log.length hB' hB2,
        get_append_last_eq s.log wave hB2]
      exact he
  · -- PromptsGood
    have hgoal : PromptsGood (s.log ++ [wave]) := by
      intro wA hA e he b hb
      have hA' : wA < s.log.length + 1 := by simpa using hA
      rcases Nat.lt_succ_iff_lt_or_eq.mp hA' with hlt | heqA
      · -- an old wave: lift the old property
        rw [get_append_left_eq s.log [wave] wA hlt hA] at he
        rcases hPG wA hlt e he b hb with
          ⟨wB, hB, eB, hmemB, hltB, hidxB, pre, post, hsplit⟩
        have hB' : wB < (s.log ++ [wave]).length := by simp; omega
        refine ⟨wB, hB', eB, ?_, hltB, hidxB, pre, post, hsplit⟩
        rw [get_append_left_eq s.log [wave] wB hB hB']
        exact hmemB
      · -- the freshly logged wave
        subst heqA
        rw [get_append_last_eq s.log wave hA] at he
        rcases runWave_ok_mem hwave e he with ⟨i, hi, cfg, hcfg, hrunL⟩
        rcases run_child_agentL_ok hrunL with ⟨hcomp, hiwf⟩
        have hconf : e.1.config = cfg := by rw [hiwf, invokeWithFallback_config]
        rw [hconf] at hb
        have hrdy : is_ready s.agents s.results i = true := List.of_mem_filter hi
        have hdeps := (is_ready_iff hcfg).mp hrdy
        rcases Option.isSome_iff_exists.mp (hdeps b hb) with ⟨rB, hlookB⟩
        have hpr : s.results.isEmpty = false := lookupRes_ne_nil hlookB
        have hrel : cfg.relies_on.isEmpty = false := by
          cases hcr : cfg.relies_on with
          | nil => rw [hcr] at hb; simp at hb
          | cons x xs => rfl
        rcases composePrompt_ok_split hpr hrel hcomp with ⟨blocks, suffix, hbl, hq⟩
        have hblockmem := buildParentContexts_mem hbl hb hlookB
        rcases strJoin_split hblockmem with ⟨pre0, post0, hsplit0⟩
        rcases hRL b rB hlookB with ⟨wB, hB, eB, hmemB, hidxB, heqB⟩
        have hB' : wB < (s.log ++ [wave]).length := by simp; omega
        refine ⟨wB, hB', eB, ?_, hB, hidxB, pre0, post0 ++ suffix, ?_⟩
        · rw [get_append_left_eq s.log [wave] wB hB hB']
          exact hmemB
        · rw [hq, hsplit0, heqB]
          simp only [String.append_assoc]
    rw [hlog]
    exact hgoal

theorem loopFuel_promptsGood (inv : Invoke) (replan : Replan) :
    ∀ (fuel : Nat) (s : SchedState), ResultsLogged s → PromptsGood s.log →
      PromptsGood (loopFuel inv replan fuel s).1.log := by
  intro fuel
  induction fuel with
  | zero =>
    intro s hRL hPG
    by_cases he : s.remaining.isEmpty = true
    · rw [loopFuel_empty he]; exact hPG
    · rw [loopFuel_zero (bool_not_true he)]; exact hPG
  | succ n ih =>
    intro s hRL hPG
    by_cases he : s.remaining.isEmpty = true
    · rw [loopFuel_empty he]; exact hPG
    · rw [loopFuel_succ (bool_not_true he)]
      cases hstep : stepBody inv replan s with
      | exit s' k =>
        rcases stepBody_exit_cases hstep with
          ⟨hk, hs⟩ | ⟨e, hk, hs⟩ | ⟨hk, newCfg, wave, hwv, hs⟩
        · exact hs ▸ hPG
        · exact hs ▸ hPG
        · subst hs
          exact (afterWave_inv hRL hPG hwv).2
      | cont s' =>
        rcases stepBody_cont_afterWave hstep with ⟨wave, hwv, hs', _⟩
        subst hs'
        have hinv := afterWave_inv hRL hPG hwv
        exact ih _ hinv.1 hinv.2

theorem initState_resultsLogged (g : MasterAgentConfig) :
    ResultsLogged (initState g) := by
  intro b rB h
  simp [lookupRes, initState] at h

theorem initState_promptsGood (g : MasterAgentConfig) :
    PromptsGood (initState g).log := by
  intro wA hA
  simp [initState] at hA

theorem runPipeline_state (inv : Invoke) (replan : Replan) (q : String)
    (g : MasterAgentConfig) :
    (runPipeline inv replan q g).state =
      (loopFuel inv replan (initState g).remaining.length (initState g)).1 := by
  simp only [runPipeline]
  rcases hk : loopFuel inv replan (initState g).remaining.length (initState g)
    with ⟨s, k⟩
  cases k <;> rfl

theorem runPipeline_promptsGood (inv : Invoke) (replan : Replan) (q : String)
    (g : MasterAgentConfig) :
    PromptsGood (runPipeline inv replan q g).state.log := by
  rw [runPipeline_state]
  exact loopFuel_promptsGood inv replan _ _
    (initState_resultsLogged g) (initState_promptsGood g)

/-! ## Aggregation and pipeline-level lemmas -/

/-- The concatenation of agent blocks appended by the
`for result in child_results` loop (lines 313–325), in stored order. -/
def blocksConcat : List AgentResult → String
  | [] => ""
  | r :: rs => agentBlock r ++ blocksConcat rs

theorem foldl_agentBlock (rs : List AgentResult) :
    ∀ acc : String, rs.foldl (fun a r => a ++ agentBlock r) acc =
      acc ++ blocksConcat rs := by
  induction rs with
  | nil => intro acc; simp [blocksConcat, String.append_empty]
  | cons r rest ih =>
    intro acc
    simp only [List.foldl_cons, blocksConcat]
    rw [ih, String.append_assoc]

theorem blocksConcat_split {r : AgentResult} :
    ∀ {rs : List AgentResult}, r ∈ rs →
      ∃ pre post, blocksConcat rs = pre ++ (agentBlock r ++ post) := by
  intro rs
  induction rs with
  | nil => intro h; simp at h
  | cons z zs ih =>
    intro h
    rcases List.mem_cons.mp h with h1 | h2
    · subst h1
      exact ⟨"", blocksConcat zs, by rw [String.empty_append]; rfl⟩
    · rcases ih h2 with ⟨pre, post, hpp⟩
      refine ⟨agentBlock z ++ pre, post, ?_⟩
      show agentBlock z ++ blocksConcat zs = agentBlock z ++ pre ++ (agentBlock r ++ post)
      rw [hpp, String.append_assoc]

theorem buildVerdictPrompt_eq (q : String) (rs : List AgentResult)
    (failed : List Nat) :
    buildVerdictPrompt q rs failed =
      queryHeader q ++ blocksConcat rs
        ++ (if failed.isEmpty then "" else failedNote failed) ++ taskBlock := by
  simp only [buildVerdictPrompt]
  rw [foldl_agentBlock]
  by_cases h : failed.isEmpty = true
  · rw [if_pos h, if_pos h, String.append_empty]
  · rw [if_neg h, if_neg h]

theorem runPipeline_verdict_some {inv : Invoke} {replan : Replan} {q : String}
    {g : MasterAgentConfig} {v : String}
    (h : (runPipeline inv replan q g).verdict = some v) :
    v = buildVerdictPrompt q
        ((runPipeline inv replan q g).state.results.map Prod.snd)
        (runPipeline inv replan q g).state.failed := by
  simp only [runPipeline] at h ⊢
  generalize loopFuel inv replan (initState g).remaining.length (initState g) = X
    at h ⊢
  obtain ⟨s, k⟩ := X
  cases k with
  | waveError e => cases h
  | fuelOut => cases h
  | completed => cases h; rfl
  | deadlocked => cases h; rfl
  | replanned => cases h; rfl

theorem runPipeline_waveError_verdict {inv : Invoke} {replan : Replan} {q : String}
    {g : MasterAgentConfig} {e : String}
    (h : (runPipeline inv replan q g).exit = .waveError e) :
    (runPipeline inv replan q g).verdict = none := by
  simp only [runPipeline] at h ⊢
  generalize loopFuel inv replan (initState g).remaining.length (initState g) = X
    at h ⊢
  obtain ⟨s, k⟩ := X
  cases k with
  | waveError e2 => rfl
  | fuelOut => rfl
  | completed => cases h
  | deadlocked => cases h
  | replanned => cases h

theorem runPipeline_deadlocked_verdict {inv : Invoke} {replan : Replan} {q : String}
    {g : MasterAgentConfig}
    (h : (runPipeline inv replan q g).exit = .deadlocked) :
    (runPipeline inv replan q g).verdict.isSome = true := by
  simp only [runPipeline] at h ⊢
  generalize loopFuel inv replan (initState g).remaining.length (initState g) = X
    at h ⊢
  obtain ⟨s, k⟩ := X
  cases k with
  | waveError e2 => cases h
  | fuelOut => cases h
  | completed => rfl
  | deadlocked => rfl
  | replanned => rfl

/-! ## Branch behaviour of the fallback handler -/

theorem invokeWithFallback_fb_ok {inv : Invoke} {cfg : AgentConfig} {idx : Nat}
    {p e1 out : String} (h : inv cfg p = .error e1)
    (hfs : pyTruthyStr cfg.fallback_strategy = true)
    (hout : inv cfg (fallbackRetryPrompt e1 (cfg.fallback_strategy.getD "")) = .ok out) :
    invokeWithFallback inv cfg idx p =
      { config := cfg, result := out, index := idx, status := "fallback_success",
        original_error := some e1 } := by
  simp only [invokeWithFallback, h, hfs, if_true, hout]

theorem invokeWithFallback_fb_err {inv : Invoke} {cfg : AgentConfig} (idx : Nat)
    {p e1 e2 : String} (h : inv cfg p = .error e1)
    (hfs : pyTruthyStr cfg.fallback_strategy = true)
    (herr : inv cfg (fallbackRetryPrompt e1 (cfg.fallback_strategy.getD "")) = .error e2) :
    invokeWithFallback inv cfg idx p =
      { config := cfg,
        result := "Both primary and fallback strategies failed. Original error: "
          ++ e1 ++ ". Fallback error: " ++ e2,
        index := idx, status := "failure",
        original_error := some e1, fallback_error := some e2 } := by
  simp only [invokeWithFallback, h, hfs, if_true, herr]

theorem run_child_agent_ok_of_compose {inv : Invoke} {cfg : AgentConfig} {idx : Nat}
    {pr : ResultsMap} {p : String} (h : composePrompt cfg idx pr = .ok p) :
    run_child_agent inv cfg idx pr = .ok (invokeWithFallback inv cfg idx p) := by
  simp only [run_child_agent, run_child_agentL]
  rw [h]
  rfl

/-! ## Concrete inputs used as evidence and witnesses -/

deriving instance DecidableEq for Except

/-- A minimal agent configuration with the given id and dependencies. -/
def mkAgent (i : Nat) (deps : List Nat) : AgentConfig :=
  { id := i, type := "T" ++ toString i, usecase := "U" ++ toString i,
    system := "sys", prompt := "P" ++ toString i, relies_on := deps }

/-- Invocation oracle that always succeeds, echoing the agent id. -/
def invConst : Invoke := fun cfg _ => .ok ("OUT" ++ toString cfg.id)

/-- Re-plan oracle modelling a planning-service exception. -/
def replanNone : Replan := fun _ => .error "replan failed"

/-! ## Claims -/

/-- **C3** (evidence of the code bug): the claim says every validated
`AgentSpec` exposes `required_tools` and `fallback_strategy` and every
validated `AgentGraph` exposes `estimated_step_count` and
`plan_confidence`, readable without error.  The runner and scheduler in
`src/main.py` do read all four attributes (`mainReadFields`), but the
pydantic models in `src/typedef/main.py` declare none of them
(`typedefFields`), so each of those reads raises `AttributeError` on
any validated configuration object. -/
theorem typedef_missing_runtime_fields :
    ("required_tools" ∈ AgentConfig.mainReadFields ∧
      "required_tools" ∉ AgentConfig.typedefFields) ∧
    ("fallback_strategy" ∈ AgentConfig.mainReadFields ∧
      "fallback_strategy" ∉ AgentConfig.typedefFields) ∧
    ("estimated_step_count" ∈ MasterAgentConfig.mainReadFields ∧
      "estimated_step_count" ∉ MasterAgentConfig.typedefFields) ∧
    ("plan_confidence" ∈ MasterAgentConfig.mainReadFields ∧
      "plan_confidence" ∉ MasterAgentConfig.typedefFields) := by
  decide

/-- The critical tool requirement of the C1 scenario. -/
def c1Tool : ToolRequirement :=
  { tool_name := "X", required_capabilities := ["cap"], fallback_tools := [],
    critical := true }

/-- C1 scenario: one agent (id 4) with a critical required tool and no
fallback strategy. -/
def c1Graph : MasterAgentConfig :=
  { query := "q1", intent_analysis := "ia", response := "r",
    agents := [{ id := 4, type := "T4", usecase := "U4", system := "s",
                 prompt := "P4", required_tools := [c1Tool] }] }

/-- C1 scenario: the re-planned graph, containing only the fresh agent
id 5. -/
def c1NewGraph : MasterAgentConfig :=
  { query := "q1", intent_analysis := "ia2", response := "r2",
    agents := [mkAgent 5 []] }

/-- C1 scenario: agent 4 always fails; everything else succeeds. -/
def c1Inv : Invoke := fun cfg _ =>
  if cfg.id = 4 then .error "boom" else .ok ("OUT" ++ toString cfg.id)

/-- C1 scenario: the planning service successfully returns the new
graph. -/
def c1Replan : Replan := fun _ => .ok c1NewGraph

set_option maxRecDepth 8192 in
/-- **C1** (evidence of the code bug): after a successful re-plan the
execution state is discarded and the new `AgentGraph` is adopted, but
the `break` of `src/main.py` line 295 leaves the only execution loop, so
the new graph's agents (here agent 5, still in `remaining`) are never
launched: the trace shows only the old pass's wave `[4]`, the results
are empty, and the final verdict prompt aggregates no agent at all —
instead of restarting at Pending and aggregating the new graph's
agents. -/
theorem replan_break_discards_new_graph :
    (runPipeline c1Inv c1Replan "q1" c1Graph).exit = .replanned ∧
    (runPipeline c1Inv c1Replan "q1" c1Graph).state.results = [] ∧
    (runPipeline c1Inv c1Replan "q1" c1Graph).state.remaining = [5] ∧
    ((runPipeline c1Inv c1Replan "q1" c1Graph).state.log.map
      (fun w => w.map (fun e => e.1.index))) = [[4]] ∧
    (runPipeline c1Inv c1Replan "q1" c1Graph).verdict =
      some (queryHeader "q1" ++ taskBlock) := by
  decide

/-- C2 scenario: agent 1 is free; agents 2 and 3 form a dependency
cycle. -/
def cycleGraph : MasterAgentConfig :=
  { query := "q", intent_analysis := "ia", response := "r",
    agents := [mkAgent 1 [], mkAgent 2 [3], mkAgent 3 [2]] }

set_option maxRecDepth 8192 in
/-- **C2** (counterexample): on a graph containing the cycle
`2 relies_on [3], 3 relies_on [2]`, no validation fails and no
`CyclicDependencyError` is raised before execution: agent 1 is launched
and completes in wave 0 (its result is stored), only then does the
scheduler hit the empty-ready `break` and end the pass Deadlocked, and
the run still proceeds to aggregation (the verdict is built).  This
refutes the claim that validation fails before any agent executes. -/
theorem cycle_no_prevalidation_counterexample :
    (cycleGraph.agents.map (fun a => (a.id, a.relies_on)) =
      [(1, ([] : List Nat)), (2, [3]), (3, [2])]) ∧
    (runPipeline invConst replanNone "q" cycleGraph).exit = .deadlocked ∧
    ((runPipeline invConst replanNone "q" cycleGraph).state.log.map
      (fun w => w.map (fun e => e.1.index))) = [[1]] ∧
    (lookupRes (runPipeline invConst replanNone "q" cycleGraph).state.results 1).isSome
      = true ∧
    (runPipeline invConst replanNone "q" cycleGraph).verdict.isSome = true := by
  decide

/-- **C2** (amended): cycles are detected at run time, not by prior
validation: whenever the remaining set is non-empty and no remaining
agent is ready, the wave loop immediately exits in the Deadlocked state
with the state unchanged (the line-227 `break`), raising nothing; a
deadlocked run still proceeds to aggregation.  Agents outside the cycle
may already have executed in earlier waves. -/
theorem cycle_detected_at_runtime_deadlock (inv : Invoke) (replan : Replan)
    (fuel : Nat) (s : SchedState) (h1 : s.remaining.isEmpty = false)
    (h2 : (computeReady s.agents s.results s.remaining).isEmpty = true) :
    loopFuel inv replan (fuel + 1) s = (s, .deadlocked) ∧
    (∀ (q : String) (g : MasterAgentConfig),
      (runPipeline inv replan q g).exit = .deadlocked →
      (runPipeline inv replan q g).verdict.isSome = true) := by
  constructor
  · rw [loopFuel_succ h1, stepBody_eq, if_pos h2]
  · intro q g h
    exact runPipeline_deadlocked_verdict h

/-- A state whose two remaining agents form a cycle, so none is ready. -/
def c2StuckState : SchedState :=
  { results := [], failed := [], limitations := [], remaining := [2, 3],
    agents := [mkAgent 2 [3], mkAgent 3 [2]], log := [] }

/-- Witness for the amended C2 theorem at a concrete stuck state. -/
theorem cycle_detected_at_runtime_deadlock_witness :
    loopFuel invConst replanNone (0 + 1) c2StuckState = (c2StuckState, .deadlocked) ∧
    (∀ (q : String) (g : MasterAgentConfig),
      (runPipeline invConst replanNone q g).exit = .deadlocked →
      (runPipeline invConst replanNone q g).verdict.isSome = true) :=
  cycle_detected_at_runtime_deadlock invConst replanNone 0 c2StuckState
    (by decide) (by decide)

/-- C4 scenario: declaration order is `[1, 2]` but agent 1 depends on
agent 2, so agent 2 completes in the earlier wave. -/
def c4Graph : MasterAgentConfig :=
  { query := "Q4", intent_analysis := "ia", response := "r",
    agents := [mkAgent 1 [2], mkAgent 2 []] }

/-- The stored result of agent 2 in the C4 scenario. -/
def c4r2 : AgentResult :=
  { config := mkAgent 2 [], result := "OUT2", index := 2, status := "success" }

/-- The stored result of agent 1 in the C4 scenario. -/
def c4r1 : AgentResult :=
  { config := mkAgent 1 [2], result := "OUT1", index := 1, status := "success" }

set_option maxRecDepth 8192 in
/-- **C4** (counterexample): the synthesis input lists agents in the
order their results were stored (wave completion order), not in the
graph's declaration order.  Declaration order is `[1, 2]`, but the run
stores `[2, 1]` and the verdict prompt equals the `[r2, r1]` rendering,
which differs from the declaration-order `[r1, r2]` rendering. -/
theorem aggregation_declaration_order_counterexample :
    (c4Graph.agents.map (fun a => a.id) = [1, 2]) ∧
    ((runPipeline invConst replanNone "Q4" c4Graph).state.results =
      [(2, c4r2), (1, c4r1)]) ∧
    ((runPipeline invConst replanNone "Q4" c4Graph).verdict =
      some (buildVerdictPrompt "Q4" [c4r2, c4r1] [])) ∧
    buildVerdictPrompt "Q4" [c4r2, c4r1] [] ≠
      buildVerdictPrompt "Q4" [c4r1, c4r2] [] := by
  decide

/-- **C4** (amended): every built synthesis input decomposes as the
query header, then one block (type, focus, status, output) per stored
result in results-insertion order (wave completion order), then the
failed-agents note exactly when `failed_agents` is non-empty, then the
task block; it contains the original query and contains every stored
agent's block. -/
theorem aggregation_completion_order (inv : Invoke) (replan : Replan)
    (q : String) (g : MasterAgentConfig) (v : String)
    (h : (runPipeline inv replan q g).verdict = some v) :
    v = queryHeader q
        ++ blocksConcat ((runPipeline inv replan q g).state.results.map Prod.snd)
        ++ (if (runPipeline inv replan q g).state.failed.isEmpty then ""
            else failedNote (runPipeline inv replan q g).state.failed)
        ++ taskBlock ∧
    (∃ pre post, v = pre ++ (q ++ post)) ∧
    (∀ entry ∈ (runPipeline inv replan q g).state.results,
      ∃ pre post, v = pre ++ (agentBlock entry.2 ++ post)) := by
  have h1 := runPipeline_verdict_some h
  rw [buildVerdictPrompt_eq] at h1
  refine ⟨h1, ?_, ?_⟩
  · refine ⟨"\n        ORIGINAL QUERY: ", "\n        "
      ++ (blocksConcat ((runPipeline inv replan q g).state.results.map Prod.snd)
        ++ ((if (runPipeline inv replan q g).state.failed.isEmpty then ""
             else failedNote (runPipeline inv replan q g).state.failed)
          ++ taskBlock)), ?_⟩
    rw [h1]
    simp only [queryHeader, String.append_assoc]
  · intro entry hmem
    have hmem2 : entry.2 ∈ (runPipeline inv replan q g).state.results.map Prod.snd :=
      List.mem_map_of_mem Prod.snd hmem
    rcases blocksConcat_split hmem2 with ⟨pre0, post0, hsplit⟩
    refine ⟨queryHeader q ++ pre0,
      post0 ++ ((if (runPipeline inv replan q g).state.failed.isEmpty then ""
        else failedNote (runPipeline inv replan q g).state.failed)
        ++ taskBlock), ?_⟩
    rw [h1, hsplit]
    simp only [String.append_assoc]

set_option maxRecDepth 8192 in
/-- Witness for the amended C4 theorem on the concrete two-agent run. -/
theorem aggregation_completion_order_witness :
    buildVerdictPrompt "Q4" [c4r2, c4r1] [] = queryHeader "Q4"
        ++ blocksConcat ((runPipeline invConst replanNone "Q4" c4Graph).state.results.map
          Prod.snd)
        ++ (if (runPipeline invConst replanNone "Q4" c4Graph).state.failed.isEmpty then ""
            else failedNote (runPipeline invConst replanNone "Q4" c4Graph).state.failed)
        ++ taskBlock ∧
    (∃ pre post, buildVerdictPrompt "Q4" [c4r2, c4r1] [] = pre ++ ("Q4" ++ post)) ∧
    (∀ entry ∈ (runPipeline invConst replanNone "Q4" c4Graph).state.results,
      ∃ pre post, buildVerdictPrompt "Q4" [c4r2, c4r1] [] =
        pre ++ (agentBlock entry.2 ++ post)) :=
  aggregation_completion_order invConst replanNone "Q4" c4Graph
    (buildVerdictPrompt "Q4" [c4r2, c4r1] []) (by decide)

/-- **C5**: for an agent whose `fallback_strategy` is truthy, when the
primary invocation of the composed prompt fails with `e1`: the single
retry prompt states the original error and the fallback instructions
(both embedded verbatim); if the retry succeeds its result has status
`fallback_success` carrying the fallback output and the original error;
if the retry fails the result has status `failure` carrying both errors;
in either case `run_child_agent` returns exactly that one result — there
is no further retry beyond the one fallback attempt. -/
theorem fallback_single_retry_behaviour (inv : Invoke) (cfg : AgentConfig)
    (idx : Nat) (pr : ResultsMap) (p e1 : String)
    (hfs : pyTruthyStr cfg.fallback_strategy = true)
    (hcomp : composePrompt cfg idx pr = .ok p)
    (hfail : inv cfg p = .error e1) :
    (∃ pre post, fallbackRetryPrompt e1 (cfg.fallback_strategy.getD "") =
      pre ++ (e1 ++ post)) ∧
    (∃ pre post, fallbackRetryPrompt e1 (cfg.fallback_strategy.getD "") =
      pre ++ ((cfg.fallback_strategy.getD "") ++ post)) ∧
    (∀ out, inv cfg (fallbackRetryPrompt e1 (cfg.fallback_strategy.getD "")) = .ok out →
      run_child_agent inv cfg idx pr = .ok
        { config := cfg, result := out, index := idx,
          status := "fallback_success", original_error := some e1 }) ∧
    (∀ e2, inv cfg (fallbackRetryPrompt e1 (cfg.fallback_strategy.getD "")) = .error e2 →
      run_child_agent inv cfg idx pr = .ok
        { config := cfg,
          result := "Both primary and fallback strategies failed. Original error: "
            ++ e1 ++ ". Fallback error: " ++ e2,
          index := idx, status := "failure",
          original_error := some e1, fallback_error := some e2 }) := by
  refine ⟨?_, ?_, ?_, ?_⟩
  · refine ⟨"\n                Original task failed with error: ",
      "\n                Please execute the following fallback strategy:\n                "
        ++ (cfg.fallback_strategy.getD "" ++ "\n                "), ?_⟩
    simp only [fallbackRetryPrompt, String.append_assoc]
  · refine ⟨"\n                Original task failed with error: "
      ++ (e1 ++ "\n                Please execute the following fallback strategy:\n                "),
      "\n                ", ?_⟩
    simp only [fallbackRetryPrompt, String.append_assoc]
  · intro out hout
    rw [run_child_agent_ok_of_compose hcomp,
      invokeWithFallback_fb_ok hfail hfs hout]
  · intro e2 herr
    rw [run_child_agent_ok_of_compose hcomp,
      invokeWithFallback_fb_err idx hfail hfs herr]

/-- C5 scenario: an agent whose primary prompt is `"P7"` and whose
fallback strategy is set. -/
def c5Cfg : AgentConfig :=
  { id := 7, type := "T7", usecase := "U7", system := "s", prompt := "P7",
    fallback_strategy := some "use plan B" }

/-- C5 scenario: the primary prompt fails, anything else succeeds. -/
def c5Inv : Invoke := fun _ p => if p = "P7" then .error "boom" else .ok "fbout"

/-- Witness for C5 at a concrete agent and oracle. -/
theorem fallback_single_retry_behaviour_witness :
    (∃ pre post, fallbackRetryPrompt "boom" (c5Cfg.fallback_strategy.getD "") =
      pre ++ ("boom" ++ post)) ∧
    (∃ pre post, fallbackRetryPrompt "boom" (c5Cfg.fallback_strategy.getD "") =
      pre ++ ((c5Cfg.fallback_strategy.getD "") ++ post)) ∧
    (∀ out, c5Inv c5Cfg (fallbackRetryPrompt "boom" (c5Cfg.fallback_strategy.getD ""))
        = .ok out →
      run_child_agent c5Inv c5Cfg 7 [] = .ok
        { config := c5Cfg, result := out, index := 7,
          status := "fallback_success", original_error := some "boom" }) ∧
    (∀ e2, c5Inv c5Cfg (fallbackRetryPrompt "boom" (c5Cfg.fallback_strategy.getD ""))
        = .error e2 →
      run_child_agent c5Inv c5Cfg 7 [] = .ok
        { config := c5Cfg,
          result := "Both primary and fallback strategies failed. Original error: "
            ++ "boom" ++ ". Fallback error: " ++ e2,
          index := 7, status := "failure",
          original_error := some "boom", fallback_error := some e2 }) :=
  fallback_single_retry_behaviour c5Inv c5Cfg 7 [] "P7" "boom"
    (by decide) (by decide) (by decide)

/-- **C6**: in any pipeline run, whenever an agent launched in wave `wA`
declares a dependency on id `b`, some strictly earlier wave `wB < wA`
launched an agent with index `b`, and the composed prompt passed to the
dependent agent's invocation embeds the labelled context block built
from that dependency's configuration and full output text. -/
theorem dependency_wave_order_and_context (inv : Invoke) (replan : Replan)
    (q : String) (g : MasterAgentConfig) (wA : Nat)
    (hA : wA < (runPipeline inv replan q g).state.log.length)
    (e : AgentResult × String)
    (he : e ∈ (runPipeline inv replan q g).state.log.get ⟨wA, hA⟩)
    (b : Nat) (hb : b ∈ e.1.config.relies_on) :
    ∃ (wB : Nat) (hB : wB < (runPipeline inv replan q g).state.log.length)
      (eB : AgentResult × String),
      eB ∈ (runPipeline inv replan q g).state.log.get ⟨wB, hB⟩ ∧ wB < wA ∧
      eB.1.index = b ∧
      ∃ pre post, e.2 = pre ++ (parentBlock b eB.1.config eB.1.result ++ post) :=
  runPipeline_promptsGood inv replan q g wA hA e he b hb

/-- C6 scenario: agent 1 depends on agent 2. -/
def c6Graph : MasterAgentConfig :=
  { query := "q", intent_analysis := "ia", response := "r",
    agents := [mkAgent 1 [2], mkAgent 2 []] }

/-- The logged launch of agent 1 in the C6 scenario: its stored result
and the composed prompt its invocation received. -/
def c6Entry : AgentResult × String :=
  ({ config := mkAgent 1 [2], result := "OUT1", index := 1, status := "success" },
   parentBlock 2 (mkAgent 2 []) "OUT2" ++ "\n\n" ++ "P1")

set_option maxRecDepth 8192 in
/-- Witness for C6: agent 1 runs in wave 1 of the concrete run and its
prompt embeds agent 2's block. -/
theorem dependency_wave_order_and_context_witness :
    ∃ (wB : Nat)
      (hB : wB < (runPipeline invConst replanNone "q" c6Graph).state.log.length)
      (eB : AgentResult × String),
      eB ∈ (runPipeline invConst replanNone "q" c6Graph).state.log.get ⟨wB, hB⟩ ∧
      wB < 1 ∧ eB.1.index = 2 ∧
      ∃ pre post, c6Entry.2 = pre ++ (parentBlock 2 eB.1.config eB.1.result ++ post) :=
  dependency_wave_order_and_context invConst replanNone "q" c6Graph 1
    (by decide) c6Entry (by decide) 2 (by decide)

/-- C7 scenario: an agent whose declared dependency (id 2) is absent
from the provided dependency results. -/
def c7Bad : AgentConfig := mkAgent 3 [2]

/-- C7 scenario: a non-empty dependency-results map that lacks id 2. -/
def c7pr : ResultsMap :=
  [(1, { config := mkAgent 1 [], result := "OUT1", index := 1, status := "success" })]

set_option maxRecDepth 8192 in
/-- **C7** (counterexample): when a dependency id is missing from the
results map, `run_child_agent` raises (`ValueError`, before the
`try` of line 74) instead of returning a contained per-agent failure
result, and the whole wave's `asyncio.gather` re-raises — dropping the
sibling agent 9's completed result — so the error is not fatal to that
agent only. -/
theorem missing_dependency_raises_counterexample :
    run_child_agent invConst c7Bad 3 c7pr =
      .error "Agent 3 depends on Agent 2, but its results are not available" ∧
    (∀ r : AgentResult, run_child_agent invConst c7Bad 3 c7pr ≠ .ok r) ∧
    runWave invConst [mkAgent 9 [], c7Bad] c7pr [9, 3] =
      .error "Agent 3 depends on Agent 2, but its results are not available" := by
  have h0 : run_child_agent invConst c7Bad 3 c7pr =
      .error "Agent 3 depends on Agent 2, but its results are not available" := by
    decide
  refine ⟨h0, ?_, by decide⟩
  intro r h
  rw [h0] at h
  cases h

/-- **C7** (amended): a missing-dependency `ValueError` propagates: when
the provided dependency results are non-empty (so the parent-context
branch is taken) and some id in `relies_on` has no stored result,
`run_child_agent` returns a raised error rather than a failure-status
result; any wave containing that agent fails as a whole; and a run whose
wave raised ends with no aggregation (the verdict is never built) —
containment happens only at the whole-pipeline handler of line 347. -/
theorem missing_dependency_aborts_run (inv : Invoke) (cfg : AgentConfig)
    (idx : Nat) (pr : ResultsMap) (b : Nat) (hpr : pr.isEmpty = false)
    (hb : b ∈ cfg.relies_on) (hmiss : lookupRes pr b = none) :
    (∃ e, run_child_agent inv cfg idx pr = .error e) ∧
    (∀ (agents : List AgentConfig) (ready : List Nat),
      agentMapLookup agents idx = some cfg → idx ∈ ready →
      ∃ e, runWave inv agents pr ready = .error e) ∧
    (∀ (replan : Replan) (q : String) (g : MasterAgentConfig) (e : String),
      (runPipeline inv replan q g).exit = .waveError e →
      (runPipeline inv replan q g).verdict = none) := by
  refine ⟨run_child_agent_error_of_missing hpr hb hmiss, ?_, ?_⟩
  · intro agents ready hcfg hmem
    rcases composePrompt_error_of_missing idx hpr hb hmiss with ⟨e0, he0⟩
    have hL : run_child_agentL inv cfg idx pr = .error e0 := by
      simp only [run_child_agentL]
      rw [he0]
    exact runWave_error_of_mem hmem hcfg hL
  · intro replan q g e h
    exact runPipeline_waveError_verdict h

/-- Witness for the amended C7 theorem at the concrete agent. -/
theorem missing_dependency_aborts_run_witness :
    (∃ e, run_child_agent invConst c7Bad 3 c7pr = .error e) ∧
    (∀ (agents : List AgentConfig) (ready : List Nat),
      agentMapLookup agents 3 = some c7Bad → 3 ∈ ready →
      ∃ e, runWave invConst agents c7pr ready = .error e) ∧
    (∀ (replan : Replan) (q : String) (g : MasterAgentConfig) (e : String),
      (runPipeline invConst replan q g).exit = .waveError e →
      (runPipeline invConst replan q g).verdict = none) :=
  missing_dependency_aborts_run invConst c7Bad 3 c7pr 2
    (by decide) (by decide) (by decide)

theorem foldlErase_nodup (wave : List (AgentResult × String)) :
    ∀ l : List Nat, l.Nodup →
      (wave.foldl (fun rem e => rem.erase e.1.index) l).Nodup := by
  induction wave with
  | nil => intro l h; exact h
  | cons e rest ih =>
    intro l h
    simp only [List.foldl_cons]
    exact ih _ (h.erase _)

theorem foldlErase_ne_indices (wave : List (AgentResult × String)) :
    ∀ l : List Nat, l.Nodup →
      ∀ i ∈ wave.foldl (fun rem e => rem.erase e.1.index) l,
        ∀ e ∈ wave, i ≠ e.1.index := by
  induction wave with
  | nil => intro l _ i _ e he; simp at he
  | cons w rest ih =>
    intro l hnd i hi e he
    simp only [List.foldl_cons] at hi
    rcases List.mem_cons.mp he with h1 | h2
    · have hmem : i ∈ l.erase w.1.index := foldlErase_mem rest _ i hi
      rw [h1]
      exact (hnd.mem_erase_iff.mp hmem).1
    · exact ih (l.erase w.1.index) (hnd.erase _) i hi e h2

theorem lookupRes_none_iff {m : ResultsMap} {i : Nat} :
    lookupRes m i = none ↔ ∀ e ∈ m, ¬((e.1 == i) = true) := by
  simp only [lookupRes, Option.map_eq_none', List.find?_eq_none]

theorem stepBody_preserves_fresh {inv : Invoke} {replan : Replan}
    {s s' : SchedState} (hnd : s.remaining.Nodup)
    (hfresh : ∀ i ∈ s.remaining, lookupRes s.results i = none)
    (h : stepBody inv replan s = .cont s') :
    s'.remaining.Nodup ∧ ∀ i ∈ s'.remaining, lookupRes s'.results i = none := by
  rcases stepBody_cont_afterWave h with ⟨wave, _, hs', _⟩
  subst hs'
  constructor
  · rw [afterWave_remaining]
    exact foldlErase_nodup wave _ hnd
  · intro i hi
    rw [afterWave_remaining] at hi
    rw [afterWave_results]
    have hmem := foldlErase_mem wave s.remaining i hi
    have hne := foldlErase_ne_indices wave s.remaining hnd i hi
    apply lookupRes_none_iff.mpr
    intro a ha
    rcases List.mem_append.mp ha with hin1 | hin2
    · exact lookupRes_none_iff.mp (hfresh i hmem) a hin1
    · rcases List.mem_map.mp hin2 with ⟨e, he, heq⟩
      subst heq
      simp only [beq_iff_eq]
      intro hcontra
      exact hne e he hcontra.symm

/-- **C8**: readiness is a pure function of `(remaining, completed,
graph)`: an id in `remaining` is returned iff every id in its
`relies_on` has a stored result (so an agent with empty or absent
`relies_on` is always ready — the universal quantification is vacuous),
and under the scheduler's invariant that no remaining id has a stored
result, the returned ready set is disjoint from the completed set.  The
final two conjuncts justify that invariant: it holds in the initial
state of every graph and is preserved by every continuing loop
iteration. -/
theorem ready_pure_characterization (agents : List AgentConfig)
    (results : ResultsMap) (remaining : List Nat)
    (hmap : ∀ i ∈ remaining, (agentMapLookup agents i).isSome = true)
    (hdisj : ∀ i ∈ remaining, lookupRes results i = none) :
    (∀ idx, idx ∈ computeReady agents results remaining ↔
      (idx ∈ remaining ∧ ∀ cfg, agentMapLookup agents idx = some cfg →
        ∀ p ∈ cfg.relies_on, (lookupRes results p).isSome = true)) ∧
    (∀ idx ∈ computeReady agents results remaining,
      lookupRes results idx = none) ∧
    (∀ g : MasterAgentConfig, (initState g).remaining.Nodup ∧
      ∀ i ∈ (initState g).remaining, lookupRes (initState g).results i = none) ∧
    (∀ (inv : Invoke) (replan : Replan) (s t : SchedState),
      s.remaining.Nodup → (∀ i ∈ s.remaining, lookupRes s.results i = none) →
      stepBody inv replan s = .cont t →
      t.remaining.Nodup ∧ ∀ i ∈ t.remaining, lookupRes t.results i = none) := by
  refine ⟨?_, ?_, ?_, ?_⟩
  · intro idx
    constructor
    · intro h
      refine ⟨List.mem_of_mem_filter h, ?_⟩
      intro cfg hcfg
      exact (is_ready_iff hcfg).mp (List.of_mem_filter h)
    · rintro ⟨hm, hprop⟩
      rcases Option.isSome_iff_exists.mp (hmap idx hm) with ⟨cfg, hcfg⟩
      exact List.mem_filter.mpr ⟨hm, (is_ready_iff hcfg).mpr (hprop cfg hcfg)⟩
  · intro idx h
    exact hdisj idx (List.mem_of_mem_filter h)
  · intro g
    exact ⟨List.nodup_dedup _, fun i _ => rfl⟩
  · intro inv replan s t hnd hfresh h
    exact stepBody_preserves_fresh hnd hfresh h

/-- C8 scenario agents: agent 1 free, agent 2 depending on 1. -/
def c8Agents : List AgentConfig := [mkAgent 1 [], mkAgent 2 [1]]

/-- C8 scenario: agent 1 already completed. -/
def c8Res : ResultsMap :=
  [(1, { config := mkAgent 1 [], result := "o", index := 1, status := "success" })]

/-- Witness for C8 at a concrete one-remaining-agent state. -/
theorem ready_pure_characterization_witness :
    (∀ idx, idx ∈ computeReady c8Agents c8Res [2] ↔
      (idx ∈ [2] ∧ ∀ cfg, agentMapLookup c8Agents idx = some cfg →
        ∀ p ∈ cfg.relies_on, (lookupRes c8Res p).isSome = true)) ∧
    (∀ idx ∈ computeReady c8Agents c8Res [2], lookupRes c8Res idx = none) ∧
    (∀ g : MasterAgentConfig, (initState g).remaining.Nodup ∧
      ∀ i ∈ (initState g).remaining, lookupRes (initState g).results i = none) ∧
    (∀ (inv : Invoke) (replan : Replan) (s t : SchedState),
      s.remaining.Nodup → (∀ i ∈ s.remaining, lookupRes s.results i = none) →
      stepBody inv replan s = .cont t →
      t.remaining.Nodup ∧ ∀ i ∈ t.remaining, lookupRes t.results i = none) :=
  ready_pure_characterization c8Agents c8Res [2] (by decide) (by decide)

/-- **C9**: for any graph state, oracle behaviour and fuel of at least
`|remaining|` (as used by `runPipeline`), the wave loop reaches a
genuine exit — Completed, Deadlocked, or the re-plan break — never the
out-of-fuel marker or an escaped wave exception (given every remaining
id resolves in the agent map, as holds for any graph-initial state);
Completed implies the remaining set was exhausted; and every continuing
iteration strictly shrinks the remaining set, which is what bounds the
loop. -/
theorem scheduler_wave_loop_terminates (inv : Invoke) (replan : Replan)
    (fuel : Nat) (s : SchedState) (hfuel : s.remaining.length ≤ fuel)
    (hmap : ∀ i ∈ s.remaining, (agentMapLookup s.agents i).isSome = true) :
    ((loopFuel inv replan fuel s).2 = .completed ∨
     (loopFuel inv replan fuel s).2 = .deadlocked ∨
     (loopFuel inv replan fuel s).2 = .replanned) ∧
    ((loopFuel inv replan fuel s).2 = .completed →
      (loopFuel inv replan fuel s).1.remaining = []) ∧
    (∀ t t' : SchedState, stepBody inv replan t = .cont t' →
      t'.remaining.length < t.remaining.length) :=
  ⟨loopFuel_exits inv replan fuel s hfuel hmap,
   loopFuel_completed_empty inv replan fuel s,
   fun _ _ h => stepBody_cont_shrinks h⟩

/-- Witness for C9 on the concrete two-agent graph's initial state. -/
theorem scheduler_wave_loop_terminates_witness :
    ((loopFuel invConst replanNone (initState c6Graph).remaining.length
        (initState c6Graph)).2 = .completed ∨
     (loopFuel invConst replanNone (initState c6Graph).remaining.length
        (initState c6Graph)).2 = .deadlocked ∨
     (loopFuel invConst replanNone (initState c6Graph).remaining.length
        (initState c6Graph)).2 = .replanned) ∧
    ((loopFuel invConst replanNone (initState c6Graph).remaining.length
        (initState c6Graph)).2 = .completed →
      (loopFuel invConst replanNone (initState c6Graph).remaining.length
        (initState c6Graph)).1.remaining = []) ∧
    (∀ t t' : SchedState, stepBody invConst replanNone t = .cont t' →
      t'.remaining.length < t.remaining.length) :=
  scheduler_wave_loop_terminates invConst replanNone
    (initState c6Graph).remaining.length (initState c6Graph)
    (Nat.le_refl _) (by decide)

/-- **C10**: when an agent with a truthy `fallback_strategy` and a
critical `required_tools` entry fails both its primary and its fallback
invocation, the returned result stores the errors only under
`original_error` and `fallback_error` (its `error` key is absent), so
the critical-tool limitation record built at wave close — which reads
`result.get("error", "Unknown error")` — carries the literal string
`"Unknown error"` for every such record, not either actual error
message. -/
theorem critical_limitation_error_unknown (inv : Invoke) (cfg : AgentConfig)
    (idx : Nat) (p e1 e2 : String) (tr : ToolRequirement)
    (hfs : pyTruthyStr cfg.fallback_strategy = true)
    (h1 : inv cfg p = .error e1)
    (h2 : inv cfg (fallbackRetryPrompt e1 (cfg.fallback_strategy.getD "")) = .error e2)
    (htr : tr ∈ cfg.required_tools) (hcrit : tr.critical = true) :
    (invokeWithFallback inv cfg idx p).status = "failure" ∧
    (invokeWithFallback inv cfg idx p).error = none ∧
    (invokeWithFallback inv cfg idx p).original_error = some e1 ∧
    (invokeWithFallback inv cfg idx p).fallback_error = some e2 ∧
    { agent_id := idx, agent_type := cfg.type, tool := tr.tool_name,
      required_capabilities := tr.required_capabilities,
      error := "Unknown error" } ∈
        criticalLims idx cfg (invokeWithFallback inv cfg idx p) ∧
    (∀ lim ∈ criticalLims idx cfg (invokeWithFallback inv cfg idx p),
      lim.error = "Unknown error") := by
  have hrec := invokeWithFallback_fb_err idx h1 hfs h2
  rw [hrec]
  refine ⟨rfl, rfl, rfl, rfl, ?_, ?_⟩
  · apply List.mem_filterMap.mpr
    refine ⟨tr, htr, ?_⟩
    rw [if_pos hcrit]
    rfl
  · intro lim hlim
    rcases List.mem_filterMap.mp hlim with ⟨t, _, hft⟩
    by_cases hc : t.critical = true
    · rw [if_pos hc] at hft
      cases hft
      rfl
    · rw [if_neg hc] at hft
      cases hft

/-- C10 scenario: a critical tool requirement. -/
def c10Tool : ToolRequirement :=
  { tool_name := "Y", required_capabilities := ["c1", "c2"],
    fallback_tools := [], critical := true }

/-- C10 scenario: an agent with the critical tool and a fallback
strategy. -/
def c10Cfg : AgentConfig :=
  { id := 8, type := "T8", usecase := "U8", system := "s", prompt := "P8",
    required_tools := [c10Tool], fallback_strategy := some "retry" }

/-- C10 scenario: every invocation fails. -/
def c10Inv : Invoke := fun _ _ => .error "boom"

/-- Witness for C10 at the concrete double-failure scenario. -/
theorem critical_limitation_error_unknown_witness :
    (invokeWithFallback c10Inv c10Cfg 8 "P8").status = "failure" ∧
    (invokeWithFallback c10Inv c10Cfg 8 "P8").error = none ∧
    (invokeWithFallback c10Inv c10Cfg 8 "P8").original_error = some "boom" ∧
    (invokeWithFallback c10Inv c10Cfg 8 "P8").fallback_error = some "boom" ∧
    { agent_id := 8, agent_type := c10Cfg.type, tool := c10Tool.tool_name,
      required_capabilities := c10Tool.required_capabilities,
      error := "Unknown error" } ∈
        criticalLims 8 c10Cfg (invokeWithFallback c10Inv c10Cfg 8 "P8") ∧
    (∀ lim ∈ criticalLims 8 c10Cfg (invokeWithFallback c10Inv c10Cfg 8 "P8"),
      lim.error = "Unknown error") :=
  critical_limitation_error_unknown c10Inv c10Cfg 8 "P8" "boom" "boom" c10Tool
    (by decide) rfl rfl (by decide) (by decide)

end Rao
